import Mathlib

/-!
# Daily Good Vibes: newsletter pipeline and subscription form

A shallow embedding of `backend/send-newsletter.js` and `script.js`.

* JavaScript values that reach the code (parsed JSON, `undefined`) are the
  type `JsVal`.
* Code that can throw is a function into `Except JsErr`; `try`/`catch` is the
  combinator `tryCatch`.
* Everything the scripts obtain from outside (HTTP responses, the language
  model, `JSON.parse`, the random number generator, the database, the mail
  service, the clock) is an argument of the embedded function.
-/

namespace DailyGoodVibes

/-! ## JavaScript values -/

/-- The JavaScript values the scripts handle: `undefined` and the values
`JSON.parse` can produce.  Numbers are kept as integers: the scripts only test
them for truthiness and for `> 0`.  An object is its list of own properties in
order; a key is looked up from the front. -/
inductive JsVal where
  | undefined : JsVal
  | null : JsVal
  | bool (b : Bool) : JsVal
  | num (n : Int) : JsVal
  | str (s : String) : JsVal
  | arr (xs : List JsVal) : JsVal
  | obj (fields : List (String × JsVal)) : JsVal

/-- A thrown value: a `TypeError`, a `SyntaxError`, a plain `Error` (raised by
the scripts or by a library), or an error object handed back by the database
client and thrown by the scripts (`throw dbError`, `throw error`). -/
inductive JsErr where
  | typeError (msg : String) : JsErr
  | syntaxError (msg : String) : JsErr
  | error (msg : String) : JsErr
  | object (fields : List (String × JsVal)) : JsErr

/-- The statement `try body catch (e) handler e`. -/
def tryCatch {α : Type} (body : Except JsErr α) (handler : JsErr → Except JsErr α) :
    Except JsErr α :=
  match body with
  | .ok v => .ok v
  | .error e => handler e

namespace JsVal

/-- ToBoolean. -/
def truthy : JsVal → Bool
  | undefined => false
  | null => false
  | bool b => b
  | num n => n != 0
  | str s => s != ""
  | arr _ => true
  | obj _ => true

/-- Own property `k` of an object literal, `undefined` when absent. -/
def lookupKey (k : String) : List (String × JsVal) → JsVal
  | [] => undefined
  | (k', v) :: rest => if k' = k then v else lookupKey k rest

/-- The property read `v.k` for the data keys the scripts read (`q`, `a`,
`results`, `length`, `text`, `headline`, ...).  Reading a property of
`undefined` or `null` throws a TypeError; primitives and arrays have none of
these keys except `length` on strings and arrays (a string is measured in
characters). -/
def getProp (v : JsVal) (k : String) : Except JsErr JsVal :=
  match v with
  | undefined => .error (.typeError ("Cannot read properties of undefined (reading " ++ k ++ ")"))
  | null => .error (.typeError ("Cannot read properties of null (reading " ++ k ++ ")"))
  | bool _ => .ok undefined
  | num _ => .ok undefined
  | str s => if k = "length" then .ok (num s.length) else .ok undefined
  | arr xs => if k = "length" then .ok (num xs.length) else .ok undefined
  | obj fields => .ok (lookupKey k fields)

/-- The indexed read `v[0]`: the first element of an array, the first
character of a string, the property `"0"` of an object. -/
def first (v : JsVal) : Except JsErr JsVal :=
  match v with
  | undefined => .error (.typeError "Cannot read properties of undefined (reading 0)")
  | null => .error (.typeError "Cannot read properties of null (reading 0)")
  | bool _ => .ok undefined
  | num _ => .ok undefined
  | str s =>
    match s.data with
    | [] => .ok undefined
    | c :: _ => .ok (str (String.mk [c]))
  | arr xs =>
    match xs with
    | [] => .ok undefined
    | x :: _ => .ok x
  | obj fields => .ok (lookupKey "0" fields)

end JsVal

open JsVal

/-- The read `error.message` on a caught value. -/
def JsErr.message : JsErr → JsVal
  | .typeError msg => str msg
  | .syntaxError msg => str msg
  | .error msg => str msg
  | .object fields => lookupKey "message" fields

/-- An HTTP response as the scripts use it: only `response.json()` is called,
which yields the parsed body or rejects. -/
structure Response where
  json : Except JsErr JsVal

/-! ## Quote of the day -/

/-- The fallback quote returned after the `try` block of `getQuoteOfTheDay`. -/
def fallbackQuote : JsVal :=
  obj [("text", str "The only way to do great work is to love what you do."),
       ("author", str "Steve Jobs")]

/-- The body of the `try` block of `getQuoteOfTheDay`: `some q` when the block
executes `return q`, `none` when it falls through. -/
def quoteAttempt (fetched : Except JsErr Response) : Except JsErr (Option JsVal) := do
  let response ← fetched
  let data ← response.json
  -- `data && data[0]`
  let cond ← if data.truthy then data.first else pure data
  if cond.truthy then
    let d0 ← data.first
    let q ← d0.getProp "q"
    let d0 ← data.first
    let a ← d0.getProp "a"
    return some (obj [("text", q), ("author", a)])
  else
    return none

/-- `getQuoteOfTheDay()`, given the outcome of `fetch(...)`. -/
def getQuoteOfTheDay (fetched : Except JsErr Response) : Except JsErr JsVal := do
  let r ← tryCatch (quoteAttempt fetched) (fun _ => pure none)
  match r with
  | some q => return q
  | none => return fallbackQuote

/-! ## Strings -/

/-- The characters matched by `\s` in a regular expression and removed by
`trim()`: white space and line terminators. -/
def isJsSpace (c : Char) : Bool :=
  let n := c.toNat
  n = 0x09 || n = 0x0A || n = 0x0B || n = 0x0C || n = 0x0D || n = 0x20 || n = 0xA0 ||
  n = 0x1680 || (0x2000 ≤ n && n ≤ 0x200A) || n = 0x2028 || n = 0x2029 || n = 0x202F ||
  n = 0x205F || n = 0x3000 || n = 0xFEFF

/-- Drops leading white space. -/
def trimStart : List Char → List Char
  | [] => []
  | c :: cs => if isJsSpace c then trimStart cs else c :: cs

/-- `s.trim()` on the characters of `s`. -/
def trimChars (cs : List Char) : List Char :=
  (trimStart (trimStart cs).reverse).reverse

/-- `s.trim()`. -/
def jsTrim (s : String) : String :=
  String.mk (trimChars s.data)

/-- `s.replace(/pat/g, rep)` for a literal, non-empty pattern `pat`, on
characters: matches are found left to right and do not overlap.  `skip` counts
the characters of the current match that are still to be dropped. -/
def replaceAllChars (pat rep : List Char) : Nat → List Char → List Char
  | _, [] => []
  | skip + 1, _ :: cs => replaceAllChars pat rep skip cs
  | 0, c :: cs =>
    if pat.isPrefixOf (c :: cs) then rep ++ replaceAllChars pat rep (pat.length - 1) cs
    else c :: replaceAllChars pat rep 0 cs

/-- `s.replace(/pat/g, rep)` for a literal pattern. -/
def replaceAll (pat rep : String) (s : String) : String :=
  String.mk (replaceAllChars pat.data rep.data 0 s.data)

/-- The helper `decode` of `getTriviaQuestions`: five global replacements, in
the order of the source. -/
def decode (s : String) : String :=
  replaceAll "&gt;" ">"
    (replaceAll "&lt;" "<"
      (replaceAll "&amp;" "&"
        (replaceAll "&#039;" "\x27"
          (replaceAll "&quot;" "\"" s))))

/-- The call `decode(v)` on an arbitrary value: `v.replace` exists only on
strings. -/
def decodeVal (v : JsVal) : Except JsErr String :=
  match v with
  | str s => .ok (decode s)
  | undefined => .error (.typeError "Cannot read properties of undefined (reading replace)")
  | null => .error (.typeError "Cannot read properties of null (reading replace)")
  | _ => .error (.typeError "str.replace is not a function")

/-! ## Trivia questions -/

/-- The fallback list returned after the `try` block of `getTriviaQuestions`. -/
def fallbackTrivia : List JsVal :=
  [obj [("number", num 1),
        ("question", str "What is the capital of France?"),
        ("category", str "Geography"),
        ("difficulty", str "easy"),
        ("options", arr [str "London", str "Berlin", str "Paris", str "Madrid"]),
        ("correctAnswer", str "Paris")]]

/-- The spread `...v` inside an array literal: the elements of an array, the
characters of a string; any other value is not iterable. -/
def spread (v : JsVal) : Except JsErr (List JsVal) :=
  match v with
  | arr xs => .ok xs
  | str s => .ok (s.data.map (fun c => str (String.mk [c])))
  | undefined => .error (.typeError "undefined is not iterable")
  | null => .error (.typeError "null is not iterable")
  | _ => .error (.typeError "value is not iterable")

/-- One insertion step of the shuffle: `x` goes in front of the first element
for which the comparator `() => Math.random() - 0.5` comes out negative.  The
outcome of the `k`-th call of the comparator is `rnd k`; the second component
counts the calls made so far. -/
def insertRnd (rnd : Nat → Bool) (x : JsVal) : List JsVal → Nat → List JsVal × Nat
  | [], k => ([x], k)
  | y :: ys, k =>
    if rnd k then (x :: y :: ys, k + 1)
    else
      let r := insertRnd rnd x ys (k + 1)
      (y :: r.1, r.2)

/-- The call `xs.sort(() => Math.random() - 0.5)`.  The sorting algorithm
belongs to the JavaScript engine, not to the repository; it is taken to be an
insertion sort, each comparison answered by the random comparator.  Which
order comes out for given comparator outcomes differs from engine to engine;
what is common to them, and what the theorems on the shuffle use, is that the
result is a permutation of the input. -/
def sortRnd (rnd : Nat → Bool) : List JsVal → Nat → List JsVal × Nat
  | [], k => ([], k)
  | x :: xs, k =>
    let r := sortRnd rnd xs k
    insertRnd rnd x r.1 r.2

/-- `vs.map(a => decode(a))`. -/
def decodeAll : List JsVal → Except JsErr (List String)
  | [] => .ok []
  | v :: vs => do
    let d ← decodeVal v
    let ds ← decodeAll vs
    return d :: ds

/-- The callback of `data.results.map` for the API question `q` at position
`index`; `k` is the number of comparator calls made before, and the result
carries the number made after. -/
def triviaQuestion (rnd : Nat → Bool) (q : JsVal) (index : Nat) (k : Nat) :
    Except JsErr (JsVal × Nat) := do
  let incorrect ← q.getProp "incorrect_answers"
  let spreadAnswers ← spread incorrect
  let correct ← q.getProp "correct_answer"
  let allAnswers := sortRnd rnd (spreadAnswers ++ [correct]) k
  let question ← (q.getProp "question") >>= decodeVal
  let category ← (q.getProp "category") >>= decodeVal
  let difficulty ← q.getProp "difficulty"
  let options ← decodeAll allAnswers.1
  let correctAnswer ← (q.getProp "correct_answer") >>= decodeVal
  return (obj [("number", num (index + 1)),
               ("question", str question),
               ("category", str category),
               ("difficulty", difficulty),
               ("options", arr (options.map str)),
               ("correctAnswer", str correctAnswer)],
          allAnswers.2)

/-- `data.results.map((q, index) => ...)` from position `index` on. -/
def triviaMap (rnd : Nat → Bool) : List JsVal → Nat → Nat → Except JsErr (List JsVal)
  | [], _, _ => .ok []
  | q :: qs, index, k => do
    let r ← triviaQuestion rnd q index k
    let rest ← triviaMap rnd qs (index + 1) r.2
    return r.1 :: rest

/-- The comparison `v > 0`.  For operands that are not numbers, booleans,
`null` or `undefined`, the number conversion is left to `coerce`. -/
def gtZero (coerce : JsVal → Bool) (v : JsVal) : Bool :=
  match v with
  | .num n => decide (0 < n)
  | .bool b => b
  | .undefined => false
  | .null => false
  | other => coerce other

/-- The body of the `try` block of `getTriviaQuestions`. -/
def triviaAttempt (rnd : Nat → Bool) (coerce : JsVal → Bool) (fetched : Except JsErr Response) :
    Except JsErr (Option (List JsVal)) := do
  let response ← fetched
  let data ← response.json
  let results ← data.getProp "results"
  -- `data.results && data.results.length > 0`
  let cond ← if results.truthy then (do
      let len ← results.getProp "length"
      pure (gtZero coerce len)) else pure false
  if cond then
    match results with
    | arr qs =>
      let mapped ← triviaMap rnd qs 0 0
      return some mapped
    | _ => throw (.typeError "data.results.map is not a function")
  else
    return none

/-- `getTriviaQuestions()`, given the outcome of `fetch(...)`, the outcomes
`rnd` of the random comparator and the number conversion `coerce`. -/
def getTriviaQuestions (rnd : Nat → Bool) (coerce : JsVal → Bool)
    (fetched : Except JsErr Response) : Except JsErr (List JsVal) := do
  let r ← tryCatch (triviaAttempt rnd coerce fetched) (fun _ => pure none)
  match r with
  | some qs => return qs
  | none => return fallbackTrivia

/-! ## AI news -/

/-- The item pushed by the padding loop of `getAINews`. -/
def fillerNews : JsVal :=
  obj [("headline", str "AI Development Continues Across Multiple Sectors"),
       ("summary", str "The artificial intelligence industry continues to evolve with new breakthroughs in machine learning, natural language processing, and computer vision applications."),
       ("why_it_matters", str "These advances are transforming how businesses operate and how people interact with technology.")]

/-- The five items returned by the `catch` block of `getAINews`. -/
def fallbackNews : List JsVal :=
  [obj [("headline", str "AI Models Achieve New Benchmarks in Reasoning Tasks"),
        ("summary", str "Latest AI systems demonstrate improved performance on complex reasoning challenges. Models show enhanced ability to solve multi-step problems and provide more accurate explanations for their conclusions."),
        ("why_it_matters", str "Better reasoning capabilities bring AI closer to handling real-world business and scientific challenges.")],
   obj [("headline", str "Enterprise AI Adoption Accelerates Globally"),
        ("summary", str "Companies worldwide are integrating AI into core operations, from customer service to product development. Industry reports show significant ROI and productivity gains across sectors."),
        ("why_it_matters", str "AI is becoming essential infrastructure for competitive businesses in the modern economy.")],
   obj [("headline", str "AI Safety Research Receives Increased Funding"),
        ("summary", str "Major tech companies and research institutions are expanding AI safety teams. Focus areas include alignment, interpretability, and developing frameworks for responsible AI deployment."),
        ("why_it_matters", str "Ensuring AI systems remain safe and beneficial is critical as they become more powerful and widespread.")],
   obj [("headline", str "Open Source AI Community Delivers Major Updates"),
        ("summary", str "Community-developed AI models continue to challenge proprietary systems with competitive performance. New tools make it easier for developers to build and deploy AI applications without vendor lock-in."),
        ("why_it_matters", str "Democratized AI access enables innovation from startups and researchers worldwide.")],
   obj [("headline", str "Global AI Governance Frameworks Take Shape"),
        ("summary", str "Governments and international bodies advance AI policy discussions. New regulations aim to balance innovation with safety, privacy, and ethical considerations."),
        ("why_it_matters", str "Clear regulatory frameworks help guide responsible AI development and build public trust.")]]

/-- The call `v.trim()`: only strings have the method. -/
def callTrim (v : JsVal) : Except JsErr String :=
  match v with
  | str s => .ok (jsTrim s)
  | undefined => .error (.typeError "Cannot read properties of undefined (reading trim)")
  | null => .error (.typeError "Cannot read properties of null (reading trim)")
  | _ => .error (.typeError "trim is not a function")

/-- `s.replace(/fence\s*/g, "")` on characters, for a literal non-empty
`fence`: every occurrence of `fence` is removed together with the white space
that follows it.  `skip` counts the characters of `fence` still to be dropped,
`ws` says that a fence has just been dropped and white space is being
skipped. -/
def removeFenceChars (fence : List Char) : Nat → Bool → List Char → List Char
  | _, _, [] => []
  | skip + 1, _, _ :: cs => removeFenceChars fence skip true cs
  | 0, ws, c :: cs =>
    if ws && isJsSpace c then removeFenceChars fence 0 true cs
    else if fence.isPrefixOf (c :: cs) then removeFenceChars fence (fence.length - 1) true cs
    else c :: removeFenceChars fence 0 false cs

/-- The removal of markdown fences in `getAINews`:
`.replace(/```json\s*/g, "").replace(/```\s*/g, "").trim()`. -/
def stripMarkdown (s : String) : String :=
  String.mk (trimChars
    (removeFenceChars "```".data 0 false
      (removeFenceChars "```json".data 0 false s.data)))

/-- The characters up to and including the last `]`, if there is one. -/
def upToLastBracket (cs : List Char) : Option (List Char) :=
  match (cs.reverse.dropWhile (fun c => c != ']')) with
  | [] => none
  | rest => some rest.reverse

/-- `responseText.match(/\[[\s\S]*\]/)`: the text from the first `[` to the
last `]` after it, or no match. -/
def matchArray (s : String) : Option String :=
  match s.data.dropWhile (fun c => c != '[') with
  | [] => none
  | _ :: rest =>
    match upToLastBracket rest with
    | none => none
    | some body => some (String.mk ('[' :: body))

/-- The text of the reply, lines 119 to 135 of `getAINews`:
`message.content[0].text.trim()` with the markdown removed; `created` is the
outcome of `anthropic.messages.create(...)`. -/
def newsText (created : Except JsErr JsVal) : Except JsErr String := do
  let message ← created
  let content ← message.getProp "content"
  let block ← content.first
  let text ← block.getProp "text"
  let responseText ← callTrim text
  return stripMarkdown responseText

/-- The two parsing attempts of `getAINews`: `JSON.parse` on the whole text,
and, when that throws, on the bracketed part of it. -/
def parseNews (jsonParse : String → Except JsErr JsVal) (responseText : String) :
    Except JsErr JsVal :=
  tryCatch (jsonParse responseText) (fun _ =>
    match matchArray responseText with
    | some m => jsonParse m
    | none => .error (.error "Could not find JSON array in response"))

/-- The loop `while (newsItems.length < 5) newsItems.push(filler)`; the
first argument bounds the number of iterations. -/
def padLoop : Nat → List JsVal → List JsVal
  | 0, items => items
  | fuel + 1, items =>
    if items.length < 5 then padLoop fuel (items ++ [fillerNews]) else items

/-- The body of the `try` block of `getAINews`. -/
def newsAttempt (jsonParse : String → Except JsErr JsVal) (created : Except JsErr JsVal) :
    Except JsErr (List JsVal) := do
  let responseText ← newsText created
  let newsItems ← parseNews jsonParse responseText
  -- `!Array.isArray(newsItems) || newsItems.length === 0`
  match newsItems with
  | arr [] => throw (.error "Expected array of news items, got: object")
  | arr items =>
    let padded := if items.length < 5 then padLoop 5 items else items
    return padded.take 5
  | _ => throw (.error "Expected array of news items")

/-- `getAINews()`, given `JSON.parse` and the outcome of the call of the
language model. -/
def getAINews (jsonParse : String → Except JsErr JsVal) (created : Except JsErr JsVal) :
    Except JsErr (List JsVal) :=
  tryCatch (newsAttempt jsonParse created) (fun e =>
    -- `console.error(..., error.message)`
    let _msg := e.message
    .ok fallbackNews)

/-! ## Email template -/

mutual
/-- Whether the string conversion applied by a template literal `${v}`
completes.  An object converts through `Object.prototype.toString` unless it
has an own property `toString`, which for parsed JSON is never callable; an
array converts its elements other than `null` and `undefined`. -/
def toStringOk : JsVal → Bool
  | .obj fields => !(fields.any (fun f => f.1 == "toString"))
  | .arr xs => toStringOkList xs
  | _ => true
/-- The conversion of every element by `Array.prototype.join` completes. -/
def toStringOkList : List JsVal → Bool
  | [] => true
  | x :: xs => toStringOk x && toStringOkList xs
end

/-- A substitution `${v}` of a template literal: the value, or the TypeError
of its string conversion. -/
def interpolate (v : JsVal) : Except JsErr JsVal :=
  if toStringOk v then .ok v
  else .error (.typeError "Cannot convert object to primitive value")

/-- The substitutions of `opts.map((opt, i) => ...)`. -/
def interpolateAll : List JsVal → Except JsErr (List JsVal)
  | [] => .ok []
  | v :: vs => do
    let p ← interpolate v
    let ps ← interpolateAll vs
    return p :: ps

/-- The call `q.options.map(...)` of the template. -/
def renderOptions (options : JsVal) : Except JsErr (List JsVal) :=
  match options with
  | arr opts => interpolateAll opts
  | undefined => .error (.typeError "Cannot read properties of undefined (reading map)")
  | null => .error (.typeError "Cannot read properties of null (reading map)")
  | _ => .error (.typeError "q.options.map is not a function")

/-- The substitutions made for one trivia question `q`, in template order. -/
def renderQuestion (q : JsVal) : Except JsErr (List JsVal) := do
  let number ← (q.getProp "number") >>= interpolate
  let category ← (q.getProp "category") >>= interpolate
  let difficulty ← (q.getProp "difficulty") >>= interpolate
  let question ← (q.getProp "question") >>= interpolate
  let options ← (q.getProp "options") >>= renderOptions
  let answer ← (q.getProp "correctAnswer") >>= interpolate
  return [number, category, difficulty, question] ++ options ++ [answer]

/-- The substitutions made for one news item, in template order. -/
def renderNews (news : JsVal) : Except JsErr (List JsVal) := do
  let headline ← (news.getProp "headline") >>= interpolate
  let summary ← (news.getProp "summary") >>= interpolate
  let why ← (news.getProp "why_it_matters") >>= interpolate
  return [headline, summary, why]

/-- `items.map(render)` followed by `join`, for the two sections of the
template. -/
def renderEach (render : JsVal → Except JsErr (List JsVal)) :
    List JsVal → Except JsErr (List JsVal)
  | [] => .ok []
  | v :: vs => do
    let p ← render v
    let ps ← renderEach render vs
    return p ++ ps

/-- The content of one issue: `{ quote, trivia, aiNews }`. -/
structure Content where
  quote : JsVal
  trivia : List JsVal
  aiNews : List JsVal

/-- The document built by `createEmailHTML`: the values substituted into the
template, in order, and the unsubscribe link.  The fixed text of the template
and the date in its header are left out. -/
structure Html where
  pieces : List JsVal
  unsubscribeUrl : String

/-- The substitutions of the template that come from the content, in
template order: quote, trivia section, news section. -/
def templatePieces (content : Content) : Except JsErr (List JsVal) := do
  let text ← (content.quote.getProp "text") >>= interpolate
  let author ← (content.quote.getProp "author") >>= interpolate
  let trivia ← renderEach renderQuestion content.trivia
  let aiNews ← renderEach renderNews content.aiNews
  return [text, author] ++ trivia ++ aiNews

/-- `createEmailHTML(content, unsubscribeUrl)`. -/
def createEmailHTML (content : Content) (unsubscribeUrl : String) : Except JsErr Html := do
  let pieces ← templatePieces content
  return { pieces := pieces, unsubscribeUrl := unsubscribeUrl }

/-! ## Sending the newsletter -/

/-- A row of the `subscribers` table as selected by the script. -/
structure Subscriber where
  email : String
  unsubscribe_token : String

/-- The argument of `resend.emails.send`: `from`, `to`, `subject`, `html`. -/
structure EmailMsg where
  sender : String
  toAddr : String
  subject : String
  html : Html

/-- The reply `{ data, error }` of the subscriber query: `data` is `null` or
an array of rows, `error` is `null` or an error object. -/
structure SubscriberReply where
  data : Option (List Subscriber)
  error : Option (List (String × JsVal))

/-- What the variables of the batch loop hold: the two counters, and the log
of the calls of `resend.emails.send` made so far, each with `true` when it
returned and `false` when it threw. -/
structure LoopState where
  attempts : List (EmailMsg × Bool)
  successCount : Nat
  errorCount : Nat

/-- The surroundings of one run of the script. -/
structure Env where
  /-- Outcome of `fetch` on the quote endpoint. -/
  quoteFetch : Except JsErr Response
  /-- Outcome of `fetch` on the trivia endpoint. -/
  triviaFetch : Except JsErr Response
  /-- Outcome of `anthropic.messages.create`. -/
  aiCreate : Except JsErr JsVal
  /-- The function `JSON.parse`. -/
  jsonParse : String → Except JsErr JsVal
  /-- Outcomes of the random comparator: `true` when negative. -/
  rnd : Nat → Bool
  /-- Number conversion used by `>` on operands that are not numbers. -/
  coerce : JsVal → Bool
  /-- Outcome of the subscriber query. -/
  subscribers : Except JsErr SubscriberReply
  /-- `TEST_MODE`: the flag `--test` is present. -/
  testMode : Bool
  /-- `process.env.WEBSITE_URL` as a template literal renders it. -/
  websiteUrl : String
  /-- `new Date().toLocaleDateString()`. -/
  today : String
  /-- Outcome of `resend.emails.send` on a message, given the number of
  calls made before. -/
  send : Nat → EmailMsg → Except JsErr Unit

/-- The counters and the log before the first iteration of the batch loop. -/
def loopStart : LoopState :=
  { attempts := [], successCount := 0, errorCount := 0 }

/-- The unsubscribe link of a subscriber. -/
def unsubscribeUrlOf (websiteUrl : String) (subscriber : Subscriber) : String :=
  websiteUrl ++ "/unsubscribe.html?token=" ++ subscriber.unsubscribe_token

/-- The message passed to `resend.emails.send` for a subscriber. -/
def mailFor (env : Env) (subscriber : Subscriber) (emailHTML : Html) : EmailMsg :=
  { sender := "Daily Good Vibes <onboarding@resend.dev>",
    toAddr := subscriber.email,
    subject := "☀️ Your Daily Good Vibes - " ++ env.today,
    html := emailHTML }

/-- The `try` block of the batch loop for one subscriber: the state it leaves
behind and whether it completed or threw.  The pause after a send is left
out. -/
def sendBody (env : Env) (content : Content) (st : LoopState) (subscriber : Subscriber) :
    LoopState × Except JsErr Unit :=
  let unsubscribeUrl := unsubscribeUrlOf env.websiteUrl subscriber
  match createEmailHTML content unsubscribeUrl with
  | .error e => (st, .error e)
  | .ok emailHTML =>
    let msg := mailFor env subscriber emailHTML
    match env.send st.attempts.length msg with
    | .error e => ({ st with attempts := st.attempts ++ [(msg, false)] }, .error e)
    | .ok _ =>
      ({ st with attempts := st.attempts ++ [(msg, true)],
                 successCount := st.successCount + 1 }, .ok ())

/-- One iteration of the batch loop: the `try` block and its `catch`. -/
def sendOne (env : Env) (content : Content) (st : LoopState) (subscriber : Subscriber) :
    Except JsErr LoopState :=
  match sendBody env content st subscriber with
  | (st', .ok _) => .ok st'
  | (st', .error e) =>
    -- `errorCount++; console.error(..., error.message)`
    let _msg := e.message
    .ok { st' with errorCount := st'.errorCount + 1 }

/-- The loop `for (const subscriber of subscribers)`. -/
def sendLoop (env : Env) (content : Content) : List Subscriber → LoopState → Except JsErr LoopState
  | [], st => .ok st
  | subscriber :: rest, st => do
    let st' ← sendOne env content st subscriber
    sendLoop env content rest st'

/-- The call `v.substring(0, 50)`: only strings have the method. -/
def callSubstring (v : JsVal) : Except JsErr String :=
  match v with
  | str s => .ok (String.mk (s.data.take 50))
  | undefined => .error (.typeError "Cannot read properties of undefined (reading substring)")
  | null => .error (.typeError "Cannot read properties of null (reading substring)")
  | _ => .error (.typeError "quote.text.substring is not a function")

/-- Step 1 of `sendDailyNewsletter`: the three providers joined by
`Promise.all`. -/
def generateContent (env : Env) : Except JsErr Content := do
  let quote ← getQuoteOfTheDay env.quoteFetch
  let trivia ← getTriviaQuestions env.rnd env.coerce env.triviaFetch
  let aiNews ← getAINews env.jsonParse env.aiCreate
  return { quote := quote, trivia := trivia, aiNews := aiNews }

/-- How a run that does not throw ends: with the early `return` for an empty
subscriber list, or after the batch loop. -/
inductive RunResult where
  | noSubscribers : RunResult
  | sent (st : LoopState) : RunResult

/-- The body of the outer `try` block of `sendDailyNewsletter`. -/
def runAttempt (env : Env) : Except JsErr RunResult := do
  let content ← generateContent env
  -- the summary logged after generation: `quote.text.substring(0, 50)`
  let text ← content.quote.getProp "text"
  let _ ← callSubstring text
  let reply ← env.subscribers
  match reply.error with
  | some dbError => throw (.object dbError)
  | none =>
    match reply.data with
    | none => return .noSubscribers
    | some [] => return .noSubscribers
    | some subscribers =>
      -- `subscribers.length = 1` in test mode
      let subscribers := if env.testMode then subscribers.take 1 else subscribers
      let st ← sendLoop env content subscribers loopStart
      return .sent st

/-- `sendDailyNewsletter()`: the outer `catch` logs and rethrows. -/
def sendDailyNewsletter (env : Env) : Except JsErr RunResult :=
  tryCatch (runAttempt env) (fun e => .error e)

/-! ## Subscription form (`script.js`) -/

/-- Regular expressions, as far as `emailRegex` needs them. -/
inductive Re where
  | never : Re
  | eps : Re
  | cls (p : Char → Bool) : Re
  | seq (a b : Re) : Re
  | alt (a b : Re) : Re
  | star (a : Re) : Re

namespace Re

/-- Whether the expression matches the empty string. -/
def nullable : Re → Bool
  | never => false
  | eps => true
  | cls _ => false
  | seq a b => a.nullable && b.nullable
  | alt a b => a.nullable || b.nullable
  | star _ => true

/-- The expression matching what may follow the character `c`. -/
def deriv (c : Char) : Re → Re
  | never => never
  | eps => never
  | cls p => if p c then eps else never
  | seq a b => if a.nullable then alt (seq (a.deriv c) b) (b.deriv c) else seq (a.deriv c) b
  | alt a b => alt (a.deriv c) (b.deriv c)
  | star a => seq (a.deriv c) (star a)

/-- `a+`. -/
def plus (a : Re) : Re := seq a (star a)

/-- `/^r$/.test(s)`: the whole of `s` matches `r`. -/
def test : Re → List Char → Bool
  | r, [] => r.nullable
  | r, c :: cs => test (r.deriv c) cs

end Re

/-- The class `[^\s@]`. -/
def notSpaceOrAt (c : Char) : Bool := !(isJsSpace c || c == '@')

/-- The expression `/^[^\s@]+@[^\s@]+\.[^\s@]+$/`. -/
def emailRegex : Re :=
  .seq (Re.plus (.cls notSpaceOrAt))
    (.seq (.cls (fun c => c == '@'))
      (.seq (Re.plus (.cls notSpaceOrAt))
        (.seq (.cls (fun c => c == '.'))
          (Re.plus (.cls notSpaceOrAt)))))

/-- `isValidEmail(email)`. -/
def isValidEmail (email : String) : Bool :=
  emailRegex.test email.data

/-- A call made on the database client by the submit handler. -/
inductive DbCall where
  | selectEmail (email : String) : DbCall
  | insertRow (email subscribedAt : String) (isActive : Bool) : DbCall

/-- The reply `{ data, error }` of a call on the database client. -/
structure DbReply where
  data : JsVal
  error : Option (List (String × JsVal))

/-- What the submit handler obtains from the browser. -/
structure Browser where
  /-- Whether the variable `supabase` has been assigned by the loader. -/
  supabaseReady : Bool
  /-- The method `toLowerCase` of strings. -/
  toLowerCase : String → String
  /-- Outcome of the query for a row with the given email. -/
  selectSingle : String → Except JsErr DbReply
  /-- Outcome of the insert of a row. -/
  insert : String → String → Bool → Except JsErr DbReply
  /-- `new Date().toISOString()`. -/
  now : String

/-- The page as the handler sees and changes it: the value of the email
input, the submit button, the message shown (text and type), and the log of
database calls made.  The timer that hides the message is left out. -/
structure Page where
  inputValue : String
  btnDisabled : Bool
  btnText : String
  message : Option (String × String)
  calls : List DbCall

/-- `showMessage(text, type)`. -/
def showMessage (text type : String) (page : Page) : Page :=
  { page with message := some (text, type) }

/-- The test `error && error.code !== "PGRST116"` on the reply of the
insert. -/
def insertFailed (error : Option (List (String × JsVal))) : Bool :=
  match error with
  | none => false
  | some fields =>
    match lookupKey "code" fields with
    | str code => code != "PGRST116"
    | _ => true

/-- The `try` block of the submit handler: the page it leaves behind and
whether it completed (by `return` or by reaching its end) or threw. -/
def submitTry (browser : Browser) (email : String) (page : Page) : Page × Except JsErr Unit :=
  if !browser.supabaseReady then
    (page, .error (.error "Database connection not ready. Please refresh and try again."))
  else
    let page1 := { page with calls := page.calls ++ [.selectEmail email] }
    match browser.selectSingle email with
    | .error e => (page1, .error e)
    | .ok existing =>
      if existing.data.truthy then
        let page2 := showMessage "This email is already subscribed!" "error" page1
        ({ page2 with btnDisabled := false, btnText := "Subscribe Free" }, .ok ())
      else
        let page2 := { page1 with calls := page1.calls ++ [.insertRow email browser.now true] }
        match browser.insert email browser.now true with
        | .error e => (page2, .error e)
        | .ok reply =>
          if insertFailed reply.error then
            (page2, .error (.object (reply.error.getD [])))
          else
            let page3 := showMessage
              "🎉 Successfully subscribed! Check your inbox at 7 AM ET tomorrow." "success" page2
            ({ page3 with inputValue := "" }, .ok ())

/-- The email the handler works with: `emailInput.value.trim().toLowerCase()`. -/
def submittedEmail (browser : Browser) (page : Page) : String :=
  browser.toLowerCase (jsTrim page.inputValue)

/-- The submit handler of the form: validation, then the `try` block with its
`catch` and `finally`. -/
def submitHandler (browser : Browser) (page : Page) : Page :=
  let email := submittedEmail browser page
  if !isValidEmail email then
    showMessage "Please enter a valid email address." "error" page
  else
    let page1 := { page with btnDisabled := true, btnText := "Subscribing..." }
    let r := submitTry browser email page1
    let page2 :=
      match r.2 with
      | .ok _ => r.1
      | .error _ => showMessage "Something went wrong. Please try again later." "error" r.1
    { page2 with btnDisabled := false, btnText := "Subscribe Free" }

/-! ## Statements of the specification -/

/-- The list the specification expects of `getAINews`, from the outcome of the
call of the language model and the parse: the first 5 parsed items, the parsed
items padded with the filler item, or the 5 fallback items. -/
def expectedNews (parsed : Except JsErr JsVal) : List JsVal :=
  match parsed with
  | .ok (arr xs) =>
    if 5 ≤ xs.length then xs.take 5
    else if 1 ≤ xs.length then xs ++ List.replicate (5 - xs.length) fillerNews
    else fallbackNews
  | _ => fallbackNews

/-- The parsed payload `v` has no first element: `v[0]` is `undefined`, or
`v` is `null` or `undefined` and has no elements at all. -/
def noFirstElement (v : JsVal) : Bool :=
  match v.first with
  | .ok .undefined => true
  | .ok _ => false
  | .error _ => true

/-- The three failures of the quote request named by the specification: `fetch`
rejects, `response.json()` rejects, or the payload has no first element. -/
def quoteUnavailable (fetched : Except JsErr Response) : Prop :=
  (∃ e, fetched = .error e) ∨
  (∃ e, fetched = .ok { json := .error e }) ∨
  (∃ v, fetched = .ok { json := .ok v } ∧ noFirstElement v = true)

/-- A trivia question as the API documents it, for the test of the shuffle. -/
def sampleQuestion : JsVal :=
  obj [("category", str "Science &amp; Nature"),
       ("type", str "multiple"),
       ("difficulty", str "medium"),
       ("question", str "Which is &quot;heavier&quot;?"),
       ("correct_answer", str "D"),
       ("incorrect_answers", arr [str "A", str "B", str "C"])]

/-- Whether `createEmailHTML` completes on the content (the unsubscribe link
plays no part in that). -/
def renders (content : Content) : Bool :=
  match templatePieces content with
  | .ok _ => true
  | .error _ => false

/-- The number of logged sends that returned. -/
def sendsSucceeded (st : LoopState) : Nat :=
  (st.attempts.filter (fun a => a.2)).length

/-- The number of logged sends that threw. -/
def sendsThrown (st : LoopState) : Nat :=
  (st.attempts.filter (fun a => !a.2)).length

/-- The addresses the logged sends went to, in order. -/
def recipients (st : LoopState) : List String :=
  st.attempts.map (fun a => a.1.toAddr)

/-- The specification of the batch loop, for given surroundings, content and
subscribers: the loop completes, one send is attempted per subscriber in list
order, and the counters are the numbers of sends that returned and that
threw. -/
def BatchClaim (env : Env) (content : Content) (subs : List Subscriber) : Prop :=
  ∃ st, sendLoop env content subs loopStart = .ok st ∧
    recipients st = subs.map (fun s => s.email) ∧
    st.successCount = sendsSucceeded st ∧
    st.errorCount = sendsThrown st ∧
    st.successCount + st.errorCount = subs.length

/-- The specification of test mode, for surroundings whose subscriber query
returned `first :: rest`: exactly one send is attempted, addressed to
`first`. -/
def TestModeClaim (env : Env) (first : Subscriber) : Prop :=
  ∃ st, sendDailyNewsletter env = .ok (.sent st) ∧ recipients st = [first.email]

/-! ### Concrete inputs -/

/-- A `JSON.parse` that knows three texts; every other text is rejected with
a SyntaxError. -/
def sampleParse (s : String) : Except JsErr JsVal :=
  if s = "[null]" then .ok (arr [null])
  else if s = "[]" then .ok (arr [])
  else if s = "[1]" then .ok (arr [num 1])
  else .error (.syntaxError "Unexpected token")

/-- A reply of the language model whose first block holds the text `t`. -/
def messageWith (t : String) : JsVal :=
  obj [("content", arr [obj [("type", str "text"), ("text", str t)]])]

/-- Three subscribers. -/
def alice : Subscriber := { email := "alice@example.com", unsubscribe_token := "t1" }
/-- The second subscriber. -/
def bob : Subscriber := { email := "bob@example.com", unsubscribe_token := "t2" }
/-- The third subscriber. -/
def carol : Subscriber := { email := "carol@example.com", unsubscribe_token := "t3" }

/-- A run in which the quote and trivia requests fail, the language model
answers with the given text, three subscribers are fetched and every send
except the one to `bob` returns. -/
def sampleEnv (reply : String) (testMode : Bool) : Env :=
  { quoteFetch := .error (.error "network error"),
    triviaFetch := .error (.error "network error"),
    aiCreate := .ok (messageWith reply),
    jsonParse := sampleParse,
    rnd := fun _ => true,
    coerce := fun _ => false,
    subscribers := .ok { data := some [alice, bob, carol], error := none },
    testMode := testMode,
    websiteUrl := "https://example.com",
    today := "11/6/2026",
    send := fun _ msg =>
      if msg.toAddr = "bob@example.com" then .error (.error "rate limited") else .ok () }

/-- The content of a run in which the language model answers `[null]`. -/
def nullNewsContent : Content :=
  { quote := fallbackQuote, trivia := fallbackTrivia,
    aiNews := [null, fillerNews, fillerNews, fillerNews, fillerNews] }

/-- The content of a run in which every provider falls back. -/
def fallbackContent : Content :=
  { quote := fallbackQuote, trivia := fallbackTrivia, aiNews := fallbackNews }

/-- The value is not `undefined`. -/
def isDefined : JsVal → Bool
  | .undefined => false
  | _ => true

/-- The value `v` has a defined property `k`. -/
def hasField (v : JsVal) (k : String) : Bool :=
  match v.getProp k with
  | .ok x => isDefined x
  | .error _ => false

/-- A quote with a defined text and author. -/
def quoteShaped (q : JsVal) : Bool :=
  hasField q "text" && hasField q "author"

/-- A trivia question carrying number, question, category, options and
correctAnswer. -/
def questionCore (q : JsVal) : Bool :=
  hasField q "number" && hasField q "question" && hasField q "category" &&
  hasField q "options" && hasField q "correctAnswer"

/-- A trivia question carrying all six fields. -/
def questionShaped (q : JsVal) : Bool :=
  questionCore q && hasField q "difficulty"

/-- A news item with headline, summary and why_it_matters. -/
def newsShaped (n : JsVal) : Bool :=
  hasField n "headline" && hasField n "summary" && hasField n "why_it_matters"

/-- The specification of the shape of the content, for given upstream
behaviour: a quote with text and author, a non-empty list of questions with
all six fields, 5 news items with all three fields. -/
def ShapeClaim (rnd : Nat → Bool) (coerce : JsVal → Bool) (jsonParse : String → Except JsErr JsVal)
    (quoteFetch triviaFetch : Except JsErr Response) (created : Except JsErr JsVal) : Prop :=
  (∃ q, getQuoteOfTheDay quoteFetch = .ok q ∧ quoteShaped q = true) ∧
  (∃ qs, getTriviaQuestions rnd coerce triviaFetch = .ok qs ∧ qs ≠ [] ∧
    qs.all questionShaped = true) ∧
  (∃ ns, getAINews jsonParse created = .ok ns ∧ ns.length = 5 ∧ ns.all newsShaped = true)

/-- A trivia question without the field `difficulty`. -/
def bareQuestion : JsVal :=
  obj [("question", str "2 + 2?"), ("category", str "Maths"),
       ("correct_answer", str "4"), ("incorrect_answers", arr [str "3", str "5", str "22"])]

/-- The button as the handler leaves it after a submission: enabled, with the
label of the idle form. -/
def buttonIdle (page : Page) : Prop :=
  page.btnDisabled = false ∧ page.btnText = "Subscribe Free"

/-- A browser in which the database client is ready, the table holds the
single address `taken@example.com`, and inserts succeed. -/
def sampleBrowser : Browser :=
  { supabaseReady := true,
    toLowerCase := fun s => String.mk (s.data.map Char.toLower),
    selectSingle := fun email =>
      if email = "taken@example.com" then
        .ok { data := obj [("email", str "taken@example.com")], error := none }
      else
        .ok { data := null,
              error := some [("code", str "PGRST116"), ("message", str "no rows")] },
    insert := fun _ _ _ => .ok { data := null, error := none },
    now := "2026-11-06T12:00:00.000Z" }

/-- The idle page with the given text typed into the email input. -/
def pageWith (value : String) : Page :=
  { inputValue := value, btnDisabled := false, btnText := "Subscribe Free",
    message := none, calls := [] }

/-- The page while an earlier submission waits for the database, with the
given text in the email input: the button is disabled and labelled
`Subscribing...`. -/
def pendingPage (value : String) : Page :=
  { inputValue := value, btnDisabled := true, btnText := "Subscribing...",
    message := none, calls := [.selectEmail "new@example.com"] }


/-! ### HTML escaping -/

/-- The standard HTML escaping of one character, as the specification states
it: the ampersand, the angle brackets, the double quote (character 34) and
the apostrophe (character 39) become `&amp;`, `&lt;`, `&gt;`, `&quot;` and
`&#039;`; every other character is kept. -/
def escapeChar (c : Char) : List Char :=
  if c = '&' then "&amp;".data
  else if c = '<' then "&lt;".data
  else if c = '>' then "&gt;".data
  else if c = Char.ofNat 34 then "&quot;".data
  else if c = Char.ofNat 39 then "&#039;".data
  else [c]

/-- The standard HTML escaping of a list of characters. -/
def escapeChars : List Char → List Char
  | [] => []
  | c :: cs => escapeChar c ++ escapeChars cs

/-- The standard HTML escaping of a string, as the specification states it. -/
def htmlEscape (s : String) : String :=
  String.mk (escapeChars s.data)

/-- The five characters the standard escaping replaces. -/
def isSpecial (c : Char) : Bool :=
  c = '&' || c = '<' || c = '>' || c = Char.ofNat 34 || c = Char.ofNat 39

/-- The escaping of the characters selected by `enc` only: the text between
two passes of `decode`, in which some entities have been decoded already. -/
def escapeWhere (enc : Char → Bool) : List Char → List Char
  | [] => []
  | c :: cs => (if enc c then escapeChar c else [c]) ++ escapeWhere enc cs

/-- Whether `pat` occurs in `cs` as a contiguous part. -/
def occursIn (pat : List Char) : List Char → Bool
  | [] => pat.isPrefixOf []
  | c :: cs => pat.isPrefixOf (c :: cs) || occursIn pat cs

/-! ## Theorems -/

/-- The padding loop, given enough iterations, appends the filler item until
there are 5 items. -/
theorem padLoop_eq (fuel : Nat) : ∀ items : List JsVal, 5 - items.length ≤ fuel →
    padLoop fuel items = items ++ List.replicate (5 - items.length) fillerNews := by
  induction fuel with
  | zero =>
    intro items h
    have h0 : 5 - items.length = 0 := by omega
    simp [padLoop, h0]
  | succ n ih =>
    intro items h
    unfold padLoop
    split
    · next hlt =>
      rw [ih (items ++ [fillerNews]) (by simp; omega)]
      have : 5 - items.length = (5 - (items ++ [fillerNews]).length) + 1 := by simp; omega
      rw [this, List.replicate_succ]
      simp
    · next hge =>
      have h0 : 5 - items.length = 0 := by omega
      simp [h0]

/-- The list `getAINews` returns, from the outcome of the call and the
parse. -/
theorem getAINews_eq_expected (jsonParse : String → Except JsErr JsVal)
    (created : Except JsErr JsVal) :
    getAINews jsonParse created
        = .ok (expectedNews (newsText created >>= parseNews jsonParse)) := by
  unfold getAINews newsAttempt
  cases hT : newsText created with
  | error e => rfl
  | ok text =>
    cases hP : parseNews jsonParse text with
    | error e => simp [tryCatch, bind, Except.bind, hP, expectedNews]
    | ok v =>
      cases v with
      | arr xs =>
        cases xs with
        | nil => simp [tryCatch, bind, Except.bind, hP, expectedNews, throw, throwThe, MonadExceptOf.throw]
        | cons x rest =>
          simp only [tryCatch, bind, Except.bind, hP, expectedNews, pure, Except.pure]
          by_cases h5 : 5 ≤ (x :: rest).length
          · have : ¬ (x :: rest).length < 5 := by omega
            rw [if_neg this, if_pos h5]
          · have hlt : (x :: rest).length < 5 := by omega
            rw [if_pos hlt, if_neg h5, if_pos (by simp), padLoop_eq 5 _ (by omega)]
            congr 1
            apply List.take_of_length_le
            simp only [List.length_append, List.length_replicate]
            omega
      | _ => simp [tryCatch, bind, Except.bind, hP, expectedNews, throw, throwThe, MonadExceptOf.throw]

/-- The expected list always has 5 items. -/
theorem expectedNews_length (p : Except JsErr JsVal) : (expectedNews p).length = 5 := by
  unfold expectedNews
  split
  · split
    · simp; omega
    · split
      · simp; omega
      · rfl
  · rfl

/-- Every expected item has the three fields or is one of the parsed items. -/
theorem expectedNews_items (p : Except JsErr JsVal) (n : JsVal) (hn : n ∈ expectedNews p) :
    newsShaped n = true ∨ ∃ xs, p = .ok (arr xs) ∧ n ∈ xs := by
  have hfb : ∀ m ∈ fallbackNews, newsShaped m = true := by
    intro m hm
    simp only [fallbackNews, List.mem_cons, List.mem_singleton, List.not_mem_nil, or_false] at hm
    rcases hm with rfl | rfl | rfl | rfl | rfl <;> rfl
  unfold expectedNews at hn
  split at hn
  · next xs =>
    split at hn
    · exact Or.inr ⟨xs, rfl, List.mem_of_mem_take hn⟩
    · split at hn
      · rcases List.mem_append.1 hn with h | h
        · exact Or.inr ⟨xs, rfl, h⟩
        · rw [(List.mem_replicate.1 h).2]
          exact Or.inl rfl
      · exact Or.inl (hfb n hn)
  · exact Or.inl (hfb n hn)

/-- C1: for every outcome of the call of the language model and of the
parsing of its text, `getAINews` returns exactly 5 items: the first 5 parsed
items when the parsed value is an array of at least 5, the parsed items
followed by copies of the filler item when it is an array of 1 to 4, and the
5 fallback items in every other case (the call or the parse throws, the value
is not an array, or the array is empty). -/
theorem getAINews_five_items (jsonParse : String → Except JsErr JsVal)
    (created : Except JsErr JsVal) :
    getAINews jsonParse created
        = .ok (expectedNews (newsText created >>= parseNews jsonParse)) ∧
      (expectedNews (newsText created >>= parseNews jsonParse)).length = 5 :=
  ⟨getAINews_eq_expected jsonParse created, expectedNews_length _⟩

/-- The quote provider returns. -/
theorem getQuoteOfTheDay_returns (fetched : Except JsErr Response) :
    ∃ v, getQuoteOfTheDay fetched = .ok v := by
  unfold getQuoteOfTheDay
  cases h : quoteAttempt fetched with
  | error e => exact ⟨fallbackQuote, rfl⟩
  | ok r =>
    cases r with
    | none => exact ⟨fallbackQuote, rfl⟩
    | some q => exact ⟨q, rfl⟩

/-- The trivia provider returns. -/
theorem getTriviaQuestions_returns (rnd : Nat → Bool) (coerce : JsVal → Bool)
    (fetched : Except JsErr Response) :
    ∃ v, getTriviaQuestions rnd coerce fetched = .ok v := by
  unfold getTriviaQuestions
  cases h : triviaAttempt rnd coerce fetched with
  | error e => exact ⟨fallbackTrivia, rfl⟩
  | ok r =>
    cases r with
    | none => exact ⟨fallbackTrivia, rfl⟩
    | some q => exact ⟨q, rfl⟩

/-- The news provider returns. -/
theorem getAINews_returns (jsonParse : String → Except JsErr JsVal)
    (created : Except JsErr JsVal) :
    ∃ v, getAINews jsonParse created = .ok v := by
  unfold getAINews
  cases h : newsAttempt jsonParse created with
  | error e => exact ⟨fallbackNews, rfl⟩
  | ok r => exact ⟨r, rfl⟩
/-- A payload without first element makes the `try` block of the quote
provider fall through. -/
theorem quoteAttempt_noFirst (v : JsVal) (h : noFirstElement v = true) :
    quoteAttempt (.ok { json := .ok v }) = .ok none := by
  cases v with
  | undefined => rfl
  | null => rfl
  | bool b => cases b <;> rfl
  | num n =>
    by_cases hn : n = 0
    · subst hn; rfl
    · simp [quoteAttempt, bind, Except.bind, truthy, hn, first, pure, Except.pure]
  | str s =>
    rcases s with ⟨cs⟩
    cases cs with
    | nil => rfl
    | cons c cs => simp [noFirstElement, first] at h
  | arr xs =>
    cases xs with
    | nil => rfl
    | cons x xs =>
      have hx : x = undefined := by
        cases x <;> simp [noFirstElement, first] at h ⊢
      subst hx; rfl
  | obj fields =>
    have hx : lookupKey "0" fields = undefined := by
      unfold noFirstElement first at h
      simp only at h
      cases hl : lookupKey "0" fields <;> simp [hl] at h ⊢
    simp [quoteAttempt, bind, Except.bind, truthy, first, hx, pure, Except.pure]

/-- C4: when the quote request rejects, its body cannot be parsed as JSON (an
empty body included), or the parsed payload has no first element,
`getQuoteOfTheDay` returns exactly the fallback quote. -/
theorem getQuoteOfTheDay_fallback (fetched : Except JsErr Response)
    (h : quoteUnavailable fetched) :
    getQuoteOfTheDay fetched = .ok fallbackQuote := by
  rcases h with ⟨e, rfl⟩ | ⟨e, rfl⟩ | ⟨v, rfl, hv⟩
  · rfl
  · rfl
  · unfold getQuoteOfTheDay
    rw [quoteAttempt_noFirst v hv]
    rfl

/-- C4 at an empty body: `response.json()` rejects with a SyntaxError. -/
theorem getQuoteOfTheDay_fallback_witness :
    quoteUnavailable (.ok { json := .error (.syntaxError "Unexpected end of JSON input") }) ∧
    getQuoteOfTheDay (.ok { json := .error (.syntaxError "Unexpected end of JSON input") })
      = .ok fallbackQuote :=
  ⟨Or.inr (Or.inl ⟨_, rfl⟩),
   getQuoteOfTheDay_fallback _ (Or.inr (Or.inl ⟨_, rfl⟩))⟩
/-- An insertion step keeps all elements. -/
theorem insertRnd_perm (rnd : Nat → Bool) (x : JsVal) :
    ∀ (ys : List JsVal) (k : Nat), (insertRnd rnd x ys k).1.Perm (x :: ys) := by
  intro ys
  induction ys with
  | nil => intro k; exact List.Perm.refl _
  | cons y ys ih =>
    intro k
    unfold insertRnd
    split
    · exact List.Perm.refl _
    · exact ((ih (k + 1)).cons y).trans (List.Perm.swap x y ys)

/-- The shuffle returns a permutation of its input, whatever the comparator
answers. -/
theorem sortRnd_perm (rnd : Nat → Bool) :
    ∀ (xs : List JsVal) (k : Nat), (sortRnd rnd xs k).1.Perm xs := by
  intro xs
  induction xs with
  | nil => intro k; exact List.Perm.refl _
  | cons x xs ih =>
    intro k
    unfold sortRnd
    exact (insertRnd_perm rnd x _ _).trans ((ih k).cons x)

/-- Decoding a list of strings decodes each of them. -/
theorem decodeAll_strings (ss : List String) :
    decodeAll (ss.map str) = .ok (ss.map decode) := by
  induction ss with
  | nil => rfl
  | cons s ss ih => simp [decodeAll, decodeVal, bind, Except.bind, ih, pure, Except.pure]

/-- A permutation of a list of strings is a list of strings. -/
theorem perm_of_strings (ss : List String) (vs : List JsVal) (h : vs.Perm (ss.map str)) :
    ∃ ts : List String, vs = ts.map str ∧ ts.Perm ss := by
  have hall : ∀ v ∈ vs, ∃ s, v = str s := by
    intro v hv
    have := (h.mem_iff).1 hv
    simp at this
    obtain ⟨s, _, rfl⟩ := this
    exact ⟨s, rfl⟩
  let f : JsVal → String := fun v => match v with | .str s => s | _ => ""
  refine ⟨vs.map f, ?_, ?_⟩
  · clear h
    induction vs with
    | nil => rfl
    | cons v vs ih =>
      obtain ⟨s, rfl⟩ := hall v (by simp)
      simp only [List.map_cons]
      rw [← ih (fun w hw => hall w (by simp [hw]))]
  · have hid : ∀ l : List String, (l.map str).map f = l := by
      intro l
      induction l with
      | nil => rfl
      | cons a l ih => simp only [List.map_cons]; rw [ih]
    have := h.map f
    rwa [hid] at this

/-- C6: for a question of the API with incorrect answers `incorrect` and
correct answer `correct`, and for every outcome `rnd` of the random
comparator, the callback returns a question whose options are a permutation
of the decoded answers `incorrect ++ [correct]` (same length, same multiset)
and whose correctAnswer, the decoded `correct`, is one of the options. -/
theorem triviaQuestion_shuffle (rnd : Nat → Bool) (q : JsVal) (index k : Nat)
    (incorrect : List String) (correct question category : String)
    (hI : q.getProp "incorrect_answers" = .ok (arr (incorrect.map str)))
    (hC : q.getProp "correct_answer" = .ok (str correct))
    (hQ : q.getProp "question" = .ok (str question))
    (hK : q.getProp "category" = .ok (str category)) :
    ∃ (options : List String) (difficulty : JsVal) (k' : Nat),
      triviaQuestion rnd q index k
        = .ok (obj [("number", num (index + 1)),
                    ("question", str (decode question)),
                    ("category", str (decode category)),
                    ("difficulty", difficulty),
                    ("options", arr (options.map str)),
                    ("correctAnswer", str (decode correct))], k') ∧
      options.Perm ((incorrect ++ [correct]).map decode) ∧
      options.length = incorrect.length + 1 ∧
      decode correct ∈ options := by
  have hperm := sortRnd_perm rnd (incorrect.map str ++ [str correct]) k
  have hmap : incorrect.map str ++ [str correct] = (incorrect ++ [correct]).map str := by simp
  rw [hmap] at hperm
  obtain ⟨ts, hts, htperm⟩ := perm_of_strings _ _ hperm
  have hD : ∃ d, q.getProp "difficulty" = .ok d := by
    cases q with
    | undefined => simp [getProp] at hI
    | null => simp [getProp] at hI
    | bool b => exact ⟨_, rfl⟩
    | num n => exact ⟨_, rfl⟩
    | str s => simp [getProp]
    | arr xs => simp [getProp]
    | obj fs => exact ⟨_, rfl⟩
  obtain ⟨d, hd⟩ := hD
  have hopts : (ts.map decode).Perm ((incorrect ++ [correct]).map decode) := htperm.map decode
  refine ⟨ts.map decode, d, (sortRnd rnd (incorrect.map str ++ [str correct]) k).2, ?_, hopts, ?_, ?_⟩
  · unfold triviaQuestion
    simp only [hI, hC, hQ, hK, hd, bind, Except.bind, spread, decodeVal, hmap, hts,
      decodeAll_strings, pure, Except.pure]
  · have := hopts.length_eq
    simpa using this
  · exact (hopts.mem_iff).2 (by simp)
/-- When rendering throws, every iteration of the batch loop only counts an
error. -/
theorem sendLoop_render_fails (env : Env) (content : Content) (h : renders content = false) :
    ∀ (subs : List Subscriber) (st0 : LoopState),
      sendLoop env content subs st0
        = .ok { attempts := st0.attempts, successCount := st0.successCount,
                errorCount := st0.errorCount + subs.length } := by
  have hT : ∃ e, templatePieces content = .error e := by
    unfold renders at h
    cases hh : templatePieces content with
    | ok v => simp [hh] at h
    | error e => exact ⟨e, rfl⟩
  obtain ⟨e, he⟩ := hT
  intro subs
  induction subs with
  | nil => intro st0; rfl
  | cons s rest ih =>
    intro st0
    have h1 : sendOne env content st0 s
        = .ok { st0 with errorCount := st0.errorCount + 1 } := by
      simp [sendOne, sendBody, createEmailHTML, he, bind, Except.bind]
    simp only [sendLoop, h1, bind, Except.bind, ih]
    simp only [List.length_cons]
    congr 2
    omega

/-- When rendering completes, every iteration of the batch loop attempts one
send and counts its outcome. -/
theorem sendLoop_render_ok (env : Env) (content : Content) (h : renders content = true) :
    ∀ (subs : List Subscriber) (st0 : LoopState),
      ∃ st, sendLoop env content subs st0 = .ok st ∧
        recipients st = recipients st0 ++ subs.map (fun s => s.email) ∧
        sendsSucceeded st = sendsSucceeded st0 + (st.successCount - st0.successCount) ∧
        sendsThrown st = sendsThrown st0 + (st.errorCount - st0.errorCount) ∧
        st0.successCount ≤ st.successCount ∧ st0.errorCount ≤ st.errorCount ∧
        st.successCount + st.errorCount = st0.successCount + st0.errorCount + subs.length := by
  have hT : ∃ ps, templatePieces content = .ok ps := by
    unfold renders at h
    cases hh : templatePieces content with
    | ok v => exact ⟨v, rfl⟩
    | error e => simp [hh] at h
  obtain ⟨ps, hps⟩ := hT
  intro subs
  induction subs with
  | nil =>
    intro st0
    exact ⟨st0, rfl, by simp, by simp, by simp, le_refl _, le_refl _, by simp⟩
  | cons s rest ih =>
    intro st0
    cases hs : env.send st0.attempts.length
        (mailFor env s ⟨ps, unsubscribeUrlOf env.websiteUrl s⟩) with
    | error e =>
      have h1 : ∃ st1, sendOne env content st0 s = .ok st1 ∧
          recipients st1 = recipients st0 ++ [s.email] ∧
          sendsSucceeded st1 = sendsSucceeded st0 ∧
          sendsThrown st1 = sendsThrown st0 + 1 ∧
          st1.successCount = st0.successCount ∧ st1.errorCount = st0.errorCount + 1 := by
        refine ⟨{ attempts := st0.attempts ++ [(mailFor env s ⟨ps, unsubscribeUrlOf env.websiteUrl s⟩, false)],
                  successCount := st0.successCount,
                  errorCount := st0.errorCount + 1 }, ?_, ?_⟩
        · simp only [sendOne, sendBody, createEmailHTML, hps, bind, Except.bind, pure,
            Except.pure, hs]
        · simp [recipients, sendsSucceeded, sendsThrown, mailFor]
      obtain ⟨st1, e1, r1, s1, t1, c1, d1⟩ := h1
      obtain ⟨st, e2, r2, s2, t2, c2, d2, tot⟩ := ih st1
      refine ⟨st, ?_, ?_, ?_, ?_, ?_, ?_, ?_⟩
      · simp only [sendLoop, e1, bind, Except.bind, e2]
      · rw [r2, r1]; simp
      · rw [s2, s1, c1]
      · rw [t2, t1, d1]; omega
      · omega
      · omega
      · simp only [List.length_cons]; omega
    | ok u =>
      have h1 : ∃ st1, sendOne env content st0 s = .ok st1 ∧
          recipients st1 = recipients st0 ++ [s.email] ∧
          sendsSucceeded st1 = sendsSucceeded st0 + 1 ∧
          sendsThrown st1 = sendsThrown st0 ∧
          st1.successCount = st0.successCount + 1 ∧ st1.errorCount = st0.errorCount := by
        refine ⟨{ attempts := st0.attempts ++ [(mailFor env s ⟨ps, unsubscribeUrlOf env.websiteUrl s⟩, true)],
                  successCount := st0.successCount + 1,
                  errorCount := st0.errorCount }, ?_, ?_⟩
        · simp only [sendOne, sendBody, createEmailHTML, hps, bind, Except.bind, pure,
            Except.pure, hs]
        · simp [recipients, sendsSucceeded, sendsThrown, mailFor]
      obtain ⟨st1, e1, r1, s1, t1, c1, d1⟩ := h1
      obtain ⟨st, e2, r2, s2, t2, c2, d2, tot⟩ := ih st1
      refine ⟨st, ?_, ?_, ?_, ?_, ?_, ?_, ?_⟩
      · simp only [sendLoop, e1, bind, Except.bind, e2]
      · rw [r2, r1]; simp
      · rw [s2, s1, c1]; omega
      · rw [t2, t1, d1]
      · omega
      · omega
      · simp only [List.length_cons]; omega
/-- C2 (amended): for every list of subscribers and every assignment of send
outcomes the batch loop completes without raising, `successCount` is the
number of sends that returned and `successCount + errorCount` is the number of
subscribers; when the email renders for the content, exactly one send is
attempted per subscriber in list order and `errorCount` is the number of sends
that threw. -/
theorem sendLoop_counts (env : Env) (content : Content) (subs : List Subscriber) :
    ∃ st, sendLoop env content subs loopStart = .ok st ∧
      st.successCount = sendsSucceeded st ∧
      st.successCount + st.errorCount = subs.length ∧
      (renders content = true →
        recipients st = subs.map (fun s => s.email) ∧
        st.errorCount = sendsThrown st) := by
  cases h : renders content with
  | false =>
    refine ⟨_, sendLoop_render_fails env content h subs loopStart, ?_, ?_, ?_⟩
    · rfl
    · simp [loopStart]
    · intro hc; cases hc
  | true =>
    obtain ⟨st, e, r, s, t, c, d, tot⟩ := sendLoop_render_ok env content h subs loopStart
    refine ⟨st, e, ?_, ?_, ?_⟩
    · simp [sendsSucceeded, loopStart] at s ⊢
      simpa [sendsSucceeded] using s.symm
    · simpa [loopStart] using tot
    · intro _
      refine ⟨by simpa [recipients, loopStart] using r, ?_⟩
      simpa [sendsThrown, loopStart] using t.symm

/-- C2 (amended) at three subscribers, the send to the second of which
throws. -/
theorem sendLoop_counts_witness :
    renders fallbackContent = true ∧
    ∃ st, sendLoop (sampleEnv "[]" false) fallbackContent [alice, bob, carol] loopStart = .ok st ∧
      st.successCount = sendsSucceeded st ∧
      st.successCount + st.errorCount = [alice, bob, carol].length ∧
      (renders fallbackContent = true →
        recipients st = [alice, bob, carol].map (fun s => s.email) ∧
        st.errorCount = sendsThrown st) :=
  ⟨rfl, sendLoop_counts (sampleEnv "[]" false) fallbackContent [alice, bob, carol]⟩

/-- The batch loop on three subscribers when the send to the second throws:
the first and the third are still sent to, and the counters end at 2 and 1. -/
theorem sendLoop_second_of_three_throws :
    (match sendLoop (sampleEnv "[]" false) fallbackContent [alice, bob, carol] loopStart with
      | .ok st => some (st.successCount, st.errorCount, st.attempts.map (fun a => (a.1.toAddr, a.2)))
      | .error _ => none)
      = some (2, 1, [("alice@example.com", true), ("bob@example.com", false),
                     ("carol@example.com", true)]) := by
  rfl

/-- C2 (counterexample): when the language model answers `[null]`, rendering
throws for every subscriber: with one subscriber whose send would return, no
send is attempted and `errorCount` is 1, against the specification. -/
theorem sendLoop_null_news :
    generateContent (sampleEnv "[null]" false) = .ok nullNewsContent ∧
    sendLoop (sampleEnv "[null]" false) nullNewsContent [alice] loopStart
      = .ok { attempts := [], successCount := 0, errorCount := 1 } ∧
    ¬ BatchClaim (sampleEnv "[null]" false) nullNewsContent [alice] := by
  refine ⟨rfl, rfl, ?_⟩
  rintro ⟨st, h1, h2, -⟩
  have e : sendLoop (sampleEnv "[null]" false) nullNewsContent [alice] loopStart
      = .ok { attempts := [], successCount := 0, errorCount := 1 } := rfl
  rw [e] at h1
  injection h1 with h1
  subst h1
  simp [recipients] at h2

/-- In test mode a run that reaches a non-empty subscriber list is the batch
loop on its first entry. -/
theorem runAttempt_test_mode (env : Env) (content : Content) (t : String)
    (first : Subscriber) (rest : List Subscriber)
    (hmode : env.testMode = true)
    (hc : generateContent env = .ok content)
    (ht : content.quote.getProp "text" = .ok (str t))
    (hs : env.subscribers = .ok { data := some (first :: rest), error := none }) :
    sendDailyNewsletter env
      = (sendLoop env content [first] loopStart).map RunResult.sent := by
  unfold sendDailyNewsletter runAttempt
  simp only [hc, ht, hs, hmode, bind, Except.bind, callSubstring, pure, Except.pure,
    List.take_succ_cons, List.take_zero, if_true]
  cases sendLoop env content [first] loopStart <;> rfl

/-- C7 (amended): in test mode, for every non-empty list of fetched active
subscribers (the run gets to the query: the summary logged before it needs the
quote text to be a string), the batch loop runs for the first subscriber of
the fetched list only: at most one send is attempted, and when the email
renders for the content exactly one send is attempted, addressed to that
subscriber. -/
theorem test_mode_single_send (env : Env) (content : Content) (t : String)
    (first : Subscriber) (rest : List Subscriber)
    (hmode : env.testMode = true)
    (hc : generateContent env = .ok content)
    (ht : content.quote.getProp "text" = .ok (str t))
    (hs : env.subscribers = .ok { data := some (first :: rest), error := none }) :
    ∃ st, sendDailyNewsletter env = .ok (.sent st) ∧
      st.attempts.length ≤ 1 ∧
      st.successCount + st.errorCount = 1 ∧
      (renders content = true → recipients st = [first.email]) := by
  rw [runAttempt_test_mode env content t first rest hmode hc ht hs]
  cases h : renders content with
  | false =>
    rw [sendLoop_render_fails env content h [first] loopStart]
    refine ⟨_, rfl, ?_, ?_, ?_⟩
    · simp [loopStart]
    · simp [loopStart]
    · intro hc; cases hc
  | true =>
    obtain ⟨st, e, r, s, t, c, d, tot⟩ := sendLoop_render_ok env content h [first] loopStart
    rw [e]
    refine ⟨st, rfl, ?_, ?_, ?_⟩
    · have hl : (recipients st).length = 1 := by rw [r]; simp [recipients, loopStart]
      simpa [recipients] using hl.le
    · simpa [loopStart] using tot
    · intro _
      simpa [recipients, loopStart] using r

/-- C7 (amended) at three fetched subscribers and fallback content. -/
theorem test_mode_single_send_witness :
    (sampleEnv "[]" true).testMode = true ∧
    generateContent (sampleEnv "[]" true) = .ok fallbackContent ∧
    fallbackContent.quote.getProp "text"
      = .ok (str "The only way to do great work is to love what you do.") ∧
    (sampleEnv "[]" true).subscribers = .ok { data := some (alice :: [bob, carol]), error := none } ∧
    renders fallbackContent = true ∧
    ∃ st, sendDailyNewsletter (sampleEnv "[]" true) = .ok (.sent st) ∧
      st.attempts.length ≤ 1 ∧
      st.successCount + st.errorCount = 1 ∧
      (renders fallbackContent = true → recipients st = [alice.email]) :=
  ⟨rfl, rfl, rfl, rfl, rfl,
   test_mode_single_send (sampleEnv "[]" true) fallbackContent _ alice [bob, carol]
     rfl rfl rfl rfl⟩

/-- C7 (counterexample): in test mode with three fetched subscribers, when
the language model answers `[null]` rendering throws and no send is attempted
at all. -/
theorem test_mode_null_news :
    (sampleEnv "[null]" true).testMode = true ∧
    (sampleEnv "[null]" true).subscribers
      = .ok { data := some [alice, bob, carol], error := none } ∧
    sendDailyNewsletter (sampleEnv "[null]" true)
      = .ok (.sent { attempts := [], successCount := 0, errorCount := 1 }) ∧
    ¬ TestModeClaim (sampleEnv "[null]" true) alice := by
  refine ⟨rfl, rfl, rfl, ?_⟩
  rintro ⟨st, h1, h2⟩
  have e : sendDailyNewsletter (sampleEnv "[null]" true)
      = .ok (.sent { attempts := [], successCount := 0, errorCount := 1 }) := rfl
  rw [e] at h1
  injection h1 with h1
  injection h1 with h1
  subst h1
  simp [recipients] at h2
/-- When the `try` block of the quote provider returns, it returns the `q` and
`a` of the first payload element. -/
theorem quoteAttempt_some (fetched : Except JsErr Response) (q : JsVal)
    (h : quoteAttempt fetched = .ok (some q)) :
    ∃ data d0 text author, fetched = .ok { json := .ok data } ∧ data.first = .ok d0 ∧
      d0.getProp "q" = .ok text ∧ d0.getProp "a" = .ok author ∧
      q = obj [("text", text), ("author", author)] := by
  unfold quoteAttempt at h
  cases fetched with
  | error e => simp [bind, Except.bind] at h
  | ok response =>
    rcases response with ⟨j⟩
    cases j with
    | error e => simp [bind, Except.bind] at h
    | ok data =>
      simp only [bind, Except.bind] at h
      by_cases ht : data.truthy = true
      · simp only [ht, if_true] at h
        cases hf : data.first with
        | error e => simp [hf] at h
        | ok d0 =>
          simp only [hf] at h
          by_cases hd : d0.truthy = true
          · simp only [hd, if_true] at h
            cases hq : d0.getProp "q" with
            | error e => simp [hq] at h
            | ok text =>
              cases ha : d0.getProp "a" with
              | error e => simp [hq, ha] at h
              | ok author =>
                simp only [hq, ha, pure, Except.pure, Except.ok.injEq, Option.some.injEq] at h
                exact ⟨data, d0, text, author, rfl, hf, hq, ha, h.symm⟩
          · simp [hd, pure, Except.pure] at h
      · have ht' : data.truthy = false := by simpa using ht
        simp [ht', pure, Except.pure] at h

/-- A question returned by the callback carries the five decoded fields and
the difficulty found in the question of the API. -/
theorem triviaQuestion_shape (rnd : Nat → Bool) (q r : JsVal) (index k k' : Nat)
    (h : triviaQuestion rnd q index k = .ok (r, k')) :
    questionCore r = true ∧ r.getProp "difficulty" = q.getProp "difficulty" := by
  unfold triviaQuestion at h
  simp only [bind, Except.bind] at h
  cases h1 : q.getProp "incorrect_answers" with
  | error e => simp [h1] at h
  | ok inc =>
    simp only [h1] at h
    cases h2 : spread inc with
    | error e => simp [h2] at h
    | ok sp =>
      simp only [h2] at h
      cases h3 : q.getProp "correct_answer" with
      | error e => simp [h3] at h
      | ok c =>
        simp only [h3] at h
        cases h4 : q.getProp "question" with
        | error e => simp [h4] at h
        | ok qq =>
          simp only [h4] at h
          cases h5 : decodeVal qq with
          | error e => simp [h5] at h
          | ok dq =>
            simp only [h5] at h
            cases h6 : q.getProp "category" with
            | error e => simp [h6] at h
            | ok cat =>
              simp only [h6] at h
              cases h7 : decodeVal cat with
              | error e => simp [h7] at h
              | ok dc =>
                simp only [h7] at h
                cases h8 : q.getProp "difficulty" with
                | error e => simp [h8] at h
                | ok diff =>
                  simp only [h8] at h
                  cases h9 : decodeAll (sortRnd rnd (sp ++ [c]) k).1 with
                  | error e => simp [h9] at h
                  | ok opts =>
                    simp only [h9] at h
                    cases h10 : decodeVal c with
                    | error e => simp [h10] at h
                    | ok dcor =>
                      simp only [h10, pure, Except.pure, Except.ok.injEq, Prod.mk.injEq] at h
                      obtain ⟨hr, -⟩ := h
                      subst hr
                      constructor
                      · simp [questionCore, hasField, getProp, lookupKey, isDefined]
                      · simp [getProp, lookupKey]

/-- The shape of every question returned by the mapping. -/
theorem triviaMap_shape (rnd : Nat → Bool) :
    ∀ (qs : List JsVal) (index k : Nat) (out : List JsVal),
      triviaMap rnd qs index k = .ok out →
      out.all questionCore = true ∧
      List.Forall₂ (fun src q => q.getProp "difficulty" = src.getProp "difficulty") qs out := by
  intro qs
  induction qs with
  | nil =>
    intro index k out h
    simp only [triviaMap, Except.ok.injEq] at h
    subst h
    exact ⟨rfl, List.Forall₂.nil⟩
  | cons q qs ih =>
    intro index k out h
    simp only [triviaMap, bind, Except.bind] at h
    cases h1 : triviaQuestion rnd q index k with
    | error e => simp [h1] at h
    | ok r =>
      rcases r with ⟨r, k'⟩
      simp only [h1] at h
      cases h2 : triviaMap rnd qs (index + 1) k' with
      | error e => simp [h2] at h
      | ok rest =>
        simp only [h2, pure, Except.pure, Except.ok.injEq] at h
        subst h
        obtain ⟨c1, d1⟩ := triviaQuestion_shape rnd q r index k k' h1
        obtain ⟨c2, d2⟩ := ih _ _ _ h2
        exact ⟨by simp [c1, c2], List.Forall₂.cons d1 d2⟩
/-- When the `try` block of the trivia provider returns, the payload holds a
non-empty array of results, which was mapped. -/
theorem triviaAttempt_some (rnd : Nat → Bool) (coerce : JsVal → Bool)
    (fetched : Except JsErr Response) (qs : List JsVal)
    (h : triviaAttempt rnd coerce fetched = .ok (some qs)) :
    ∃ data rs, fetched = .ok { json := .ok data } ∧ data.getProp "results" = .ok (arr rs) ∧
      rs ≠ [] ∧ triviaMap rnd rs 0 0 = .ok qs := by
  unfold triviaAttempt at h
  cases fetched with
  | error e => simp [bind, Except.bind] at h
  | ok response =>
    rcases response with ⟨j⟩
    cases j with
    | error e => simp [bind, Except.bind] at h
    | ok data =>
      simp only [bind, Except.bind] at h
      cases hr : data.getProp "results" with
      | error e => simp [hr] at h
      | ok results =>
        simp only [hr] at h
        cases results with
        | arr rs =>
          cases rs with
          | nil => simp [truthy, getProp, gtZero, pure, Except.pure] at h
          | cons r rs =>
            refine ⟨data, r :: rs, rfl, hr, by simp, ?_⟩
            simp only [truthy, getProp, gtZero, pure, Except.pure, if_true] at h
            have hpos : (0 : Int) < ((r :: rs).length : Int) := by
              simp only [List.length_cons]; omega
            simp only [hpos, decide_True, if_true] at h
            cases hm : triviaMap rnd (r :: rs) 0 0 with
            | error e => simp [hm] at h
            | ok mapped => simpa [hm] using h
        | undefined => simp [truthy, pure, Except.pure] at h
        | null => simp [truthy, pure, Except.pure] at h
        | bool b =>
          cases b <;> simp [truthy, getProp, gtZero, pure, Except.pure, throw, throwThe,
            MonadExceptOf.throw] at h
        | num n =>
          by_cases hn : n = 0 <;> simp [truthy, getProp, gtZero, pure, Except.pure, throw,
            throwThe, MonadExceptOf.throw, hn] at h
        | str s =>
          by_cases hs : s = "" <;> by_cases hl : (0 : Int) < (s.length : Int) <;>
            simp [truthy, getProp, gtZero, pure, Except.pure, throw, throwThe,
              MonadExceptOf.throw, hs, hl] at h
        | obj fs =>
          simp only [truthy, getProp, pure, Except.pure, if_true] at h
          by_cases hg : gtZero coerce (lookupKey "length" fs) = true
          · simp [hg, throw, throwThe, MonadExceptOf.throw] at h
          · simp [hg] at h
/-- C5 (amended): every content provider yields a non-empty result for every
upstream payload, well-shaped up to the fields it copies from the payload
unchecked.  `getQuoteOfTheDay` returns an object with the keys text and
author, holding the fallback quote or the `q` and `a` of the first payload
element; `getTriviaQuestions` returns a non-empty list in which every question
carries number, question, category, options and correctAnswer, and as
difficulty what the question of the API holds (or it is the fallback list);
`getAINews` returns 5 items, each of which has headline, summary and
why_it_matters or is one of the parsed items. -/
theorem providers_shape (rnd : Nat → Bool) (coerce : JsVal → Bool)
    (jsonParse : String → Except JsErr JsVal)
    (quoteFetch triviaFetch : Except JsErr Response) (created : Except JsErr JsVal) :
    (∃ text author,
      getQuoteOfTheDay quoteFetch = .ok (obj [("text", text), ("author", author)]) ∧
      (obj [("text", text), ("author", author)] = fallbackQuote ∨
        ∃ data d0, quoteFetch = .ok { json := .ok data } ∧ data.first = .ok d0 ∧
          d0.getProp "q" = .ok text ∧ d0.getProp "a" = .ok author)) ∧
    (∃ qs, getTriviaQuestions rnd coerce triviaFetch = .ok qs ∧ qs ≠ [] ∧
      qs.all questionCore = true ∧
      (qs = fallbackTrivia ∨
        ∃ data rs, triviaFetch = .ok { json := .ok data } ∧
          data.getProp "results" = .ok (arr rs) ∧
          List.Forall₂ (fun src q => q.getProp "difficulty" = src.getProp "difficulty") rs qs)) ∧
    (∃ ns, getAINews jsonParse created = .ok ns ∧ ns.length = 5 ∧
      ∀ n ∈ ns, newsShaped n = true ∨
        ∃ xs, (newsText created >>= parseNews jsonParse) = .ok (arr xs) ∧ n ∈ xs) := by
  refine ⟨?_, ?_, ?_⟩
  · unfold getQuoteOfTheDay
    cases h : quoteAttempt quoteFetch with
    | error e => exact ⟨_, _, rfl, Or.inl rfl⟩
    | ok r =>
      cases r with
      | none => exact ⟨_, _, rfl, Or.inl rfl⟩
      | some q =>
        obtain ⟨data, d0, text, author, hf, h0, hq, ha, rfl⟩ := quoteAttempt_some quoteFetch q h
        exact ⟨text, author, rfl, Or.inr ⟨data, d0, hf, h0, hq, ha⟩⟩
  · unfold getTriviaQuestions
    cases h : triviaAttempt rnd coerce triviaFetch with
    | error e => exact ⟨fallbackTrivia, rfl, by simp [fallbackTrivia], rfl, Or.inl rfl⟩
    | ok r =>
      cases r with
      | none => exact ⟨fallbackTrivia, rfl, by simp [fallbackTrivia], rfl, Or.inl rfl⟩
      | some qs =>
        obtain ⟨data, rs, hf, hr, hne, hm⟩ := triviaAttempt_some rnd coerce triviaFetch qs h
        obtain ⟨hc, hd⟩ := triviaMap_shape rnd rs 0 0 qs hm
        refine ⟨qs, rfl, ?_, hc, Or.inr ⟨data, rs, hf, hr, hd⟩⟩
        intro hq
        subst hq
        cases hd
        exact hne rfl
  · refine ⟨_, getAINews_eq_expected jsonParse created, expectedNews_length _, ?_⟩
    intro n hn
    exact expectedNews_items _ n hn

/-- C5 (counterexample): a quote payload `[{}]` yields a quote whose text and
author are `undefined`; a trivia question without `difficulty` yields a
question whose difficulty is `undefined`; a reply `[1]` of the language model
yields the number 1 as first news item. -/
theorem providers_shape_counterexample :
    getQuoteOfTheDay (.ok { json := .ok (arr [obj []]) })
      = .ok (obj [("text", undefined), ("author", undefined)]) ∧
    quoteShaped (obj [("text", undefined), ("author", undefined)]) = false ∧
    getTriviaQuestions (fun _ => true) (fun _ => false)
        (.ok { json := .ok (obj [("results", arr [bareQuestion])]) })
      = .ok [obj [("number", num 1), ("question", str "2 + 2?"), ("category", str "Maths"),
                  ("difficulty", undefined),
                  ("options", arr [str "3", str "5", str "22", str "4"]),
                  ("correctAnswer", str "4")]] ∧
    getAINews sampleParse (.ok (messageWith "[1]"))
      = .ok [num 1, fillerNews, fillerNews, fillerNews, fillerNews] ∧
    newsShaped (num 1) = false ∧
    ¬ ShapeClaim (fun _ => true) (fun _ => false) sampleParse
        (.ok { json := .ok (arr [obj []]) })
        (.ok { json := .ok (obj [("results", arr [bareQuestion])]) })
        (.ok (messageWith "[1]")) := by
  refine ⟨rfl, rfl, rfl, rfl, rfl, ?_⟩
  rintro ⟨⟨q, h1, h2⟩, -⟩
  have e : getQuoteOfTheDay (.ok { json := .ok (arr [obj []]) })
      = .ok (obj [("text", undefined), ("author", undefined)]) := rfl
  rw [e] at h1
  injection h1 with h1
  subst h1
  simp [quoteShaped, hasField, getProp, lookupKey, isDefined] at h2
/-- C3: the content aggregator never raises: whatever the upstream sources do
(the request rejects, the body does not parse, or any value is parsed),
`getQuoteOfTheDay`, `getTriviaQuestions` and `getAINews` each return a value,
and so does their combination by `Promise.all`. -/
theorem providers_never_raise (env : Env) :
    (∃ quote, getQuoteOfTheDay env.quoteFetch = .ok quote) ∧
    (∃ trivia, getTriviaQuestions env.rnd env.coerce env.triviaFetch = .ok trivia) ∧
    (∃ aiNews, getAINews env.jsonParse env.aiCreate = .ok aiNews) ∧
    (∃ content, generateContent env = .ok content) := by
  obtain ⟨q, hq⟩ := getQuoteOfTheDay_returns env.quoteFetch
  obtain ⟨t, ht⟩ := getTriviaQuestions_returns env.rnd env.coerce env.triviaFetch
  obtain ⟨n, hn⟩ := getAINews_returns env.jsonParse env.aiCreate
  refine ⟨⟨q, hq⟩, ⟨t, ht⟩, ⟨n, hn⟩, ⟨{ quote := q, trivia := t, aiNews := n }, ?_⟩⟩
  simp only [generateContent, hq, ht, hn, bind, Except.bind, pure, Except.pure]

/-- C6 at a question with the answers A, B, C and D. -/
theorem triviaQuestion_shuffle_witness :
    sampleQuestion.getProp "incorrect_answers" = .ok (arr (["A", "B", "C"].map str)) ∧
    sampleQuestion.getProp "correct_answer" = .ok (str "D") ∧
    sampleQuestion.getProp "question" = .ok (str "Which is &quot;heavier&quot;?") ∧
    sampleQuestion.getProp "category" = .ok (str "Science &amp; Nature") ∧
    ∃ (options : List String) (difficulty : JsVal) (k' : Nat),
      triviaQuestion (fun k => k % 2 == 0) sampleQuestion 0 0
        = .ok (obj [("number", num (0 + 1)),
                    ("question", str (decode "Which is &quot;heavier&quot;?")),
                    ("category", str (decode "Science &amp; Nature")),
                    ("difficulty", difficulty),
                    ("options", arr (options.map str)),
                    ("correctAnswer", str (decode "D"))], k') ∧
      options.Perm ((["A", "B", "C"] ++ ["D"]).map decode) ∧
      options.length = ["A", "B", "C"].length + 1 ∧
      decode "D" ∈ options :=
  ⟨rfl, rfl, rfl, rfl,
   triviaQuestion_shuffle (fun k => k % 2 == 0) sampleQuestion 0 0 ["A", "B", "C"] "D"
     "Which is &quot;heavier&quot;?" "Science &amp; Nature" rfl rfl rfl rfl⟩

/-- C8: when the trimmed, lower-cased input is rejected by `isValidEmail`, the
submit handler makes no database call, shows the message
`Please enter a valid email address.` as an error, and leaves the submit
button as it was (enabled when it was enabled). -/
theorem submit_invalid_email (browser : Browser) (page : Page)
    (h : isValidEmail (submittedEmail browser page) = false) :
    (submitHandler browser page).calls = page.calls ∧
    (submitHandler browser page).message
      = some ("Please enter a valid email address.", "error") ∧
    (submitHandler browser page).btnDisabled = page.btnDisabled ∧
    (submitHandler browser page).btnText = page.btnText := by
  have hrun : submitHandler browser page
      = showMessage "Please enter a valid email address." "error" page := by
    unfold submitHandler
    simp only [h, Bool.not_false, if_true]
  rw [hrun]
  exact ⟨rfl, rfl, rfl, rfl⟩

/-- C8 at the input `not-an-email`. -/
theorem submit_invalid_email_witness :
    isValidEmail (submittedEmail sampleBrowser (pageWith "not-an-email")) = false ∧
    (submitHandler sampleBrowser (pageWith "not-an-email")).calls = [] ∧
    (submitHandler sampleBrowser (pageWith "not-an-email")).message
      = some ("Please enter a valid email address.", "error") ∧
    (submitHandler sampleBrowser (pageWith "not-an-email")).btnDisabled = false ∧
    (submitHandler sampleBrowser (pageWith "not-an-email")).btnText = "Subscribe Free" :=
  ⟨by decide, submit_invalid_email sampleBrowser (pageWith "not-an-email") (by decide)⟩

/-- C9: for a valid email, when the database client is ready and the
existence query returns a row, the submit handler shows
`This email is already subscribed!` and its only database call is that query:
no insert is made. -/
theorem submit_duplicate (browser : Browser) (page : Page) (existing : DbReply)
    (hvalid : isValidEmail (submittedEmail browser page) = true)
    (hready : browser.supabaseReady = true)
    (hquery : browser.selectSingle (submittedEmail browser page) = .ok existing)
    (hrow : existing.data.truthy = true) :
    (submitHandler browser page).message
      = some ("This email is already subscribed!", "error") ∧
    (submitHandler browser page).calls
      = page.calls ++ [.selectEmail (submittedEmail browser page)] := by
  have htry : ∀ p : Page, submitTry browser (submittedEmail browser page) p
      = ({ showMessage "This email is already subscribed!" "error"
             { p with calls := p.calls ++ [.selectEmail (submittedEmail browser page)] } with
           btnDisabled := false, btnText := "Subscribe Free" }, .ok ()) := by
    intro p
    unfold submitTry
    simp only [hready, hquery, hrow, Bool.not_true, if_true]
    rfl
  unfold submitHandler
  simp only [hvalid, Bool.not_true, htry]
  exact ⟨rfl, rfl⟩

/-- C9 at an address the table already holds, typed with capitals and
surrounding blanks. -/
theorem submit_duplicate_witness :
    isValidEmail (submittedEmail sampleBrowser (pageWith " Taken@Example.com ")) = true ∧
    sampleBrowser.supabaseReady = true ∧
    sampleBrowser.selectSingle (submittedEmail sampleBrowser (pageWith " Taken@Example.com "))
      = .ok { data := obj [("email", str "taken@example.com")], error := none } ∧
    (submitHandler sampleBrowser (pageWith " Taken@Example.com ")).message
      = some ("This email is already subscribed!", "error") ∧
    (submitHandler sampleBrowser (pageWith " Taken@Example.com ")).calls
      = [] ++ [.selectEmail (submittedEmail sampleBrowser (pageWith " Taken@Example.com "))] :=
  ⟨by decide, rfl, by rfl,
   submit_duplicate sampleBrowser (pageWith " Taken@Example.com ")
     { data := obj [("email", str "taken@example.com")], error := none }
     (by decide) rfl (by rfl) rfl⟩

/-- C10 (amended): on every path through the submit handler that passes
validation (database client not ready, duplicate found, insert succeeds, query
or insert fails) the submit button is enabled again with the label
`Subscribe Free` when the handler completes, whatever its state before; on the
invalid-email path the handler does not touch the button, which keeps the
state and the label it had when the handler started. -/
theorem submit_button_reset (browser : Browser) (page : Page) :
    (isValidEmail (submittedEmail browser page) = true →
      buttonIdle (submitHandler browser page)) ∧
    (isValidEmail (submittedEmail browser page) = false →
      (submitHandler browser page).btnDisabled = page.btnDisabled ∧
      (submitHandler browser page).btnText = page.btnText) := by
  constructor
  · intro hv
    unfold buttonIdle submitHandler
    simp only [hv, Bool.not_true]
    exact ⟨rfl, rfl⟩
  · intro hv
    have hrun : submitHandler browser page
        = showMessage "Please enter a valid email address." "error" page := by
      unfold submitHandler
      simp only [hv, Bool.not_false, if_true]
    rw [hrun]
    exact ⟨rfl, rfl⟩

/-- C10 (amended) at a new address submitted while the button is disabled,
and at the input `not-an-email` typed into the idle form. -/
theorem submit_button_reset_witness :
    (isValidEmail (submittedEmail sampleBrowser (pendingPage "new@example.com")) = true ∧
      buttonIdle (submitHandler sampleBrowser (pendingPage "new@example.com"))) ∧
    (isValidEmail (submittedEmail sampleBrowser (pageWith "not-an-email")) = false ∧
      (submitHandler sampleBrowser (pageWith "not-an-email")).btnDisabled
        = (pageWith "not-an-email").btnDisabled ∧
      (submitHandler sampleBrowser (pageWith "not-an-email")).btnText
        = (pageWith "not-an-email").btnText) :=
  ⟨⟨by decide, (submit_button_reset sampleBrowser (pendingPage "new@example.com")).1 (by decide)⟩,
   ⟨by decide, (submit_button_reset sampleBrowser (pageWith "not-an-email")).2 (by decide)⟩⟩

/-- C10 (counterexample): a submit event that arrives while an earlier
submission is pending (the key handler of the input dispatches one) finds the
button disabled; with the invalid input `nope` the handler returns after
showing the message and leaves the button disabled, with the label
`Subscribing...`: the form is not idle when the handler completes. -/
theorem submit_invalid_while_pending :
    isValidEmail (submittedEmail sampleBrowser (pendingPage "nope")) = false ∧
    (submitHandler sampleBrowser (pendingPage "nope")).btnDisabled = true ∧
    (submitHandler sampleBrowser (pendingPage "nope")).btnText = "Subscribing..." ∧
    ¬ buttonIdle (submitHandler sampleBrowser (pendingPage "nope")) := by
  have hd : (submitHandler sampleBrowser (pendingPage "nope")).btnDisabled = true := by decide
  refine ⟨by decide, hd, by decide, ?_⟩
  intro h
  rw [h.1] at hd
  cases hd

/-- A special character is one of the five. -/
theorem isSpecial_cases (c : Char) (h : isSpecial c = true) :
    c = '&' ∨ c = '<' ∨ c = '>' ∨ c = Char.ofNat 34 ∨ c = Char.ofNat 39 := by
  simpa [isSpecial, or_assoc] using h

/-- The entity of a special character starts with an ampersand and has no
other, and its second character is not special. -/
theorem escapeChar_special (c : Char) (h : isSpecial c = true) :
    ∃ b body, escapeChar c = '&' :: b :: body ∧ isSpecial b = false ∧
      (∀ a ∈ b :: body, a ≠ '&') ∧ (∀ a ∈ b :: body, isSpecial a = false) := by
  rcases isSpecial_cases c h with rfl | rfl | rfl | rfl | rfl
  · exact ⟨'a', "mp;".data, by decide, by decide, by decide, by decide⟩
  · exact ⟨'l', "t;".data, by decide, by decide, by decide, by decide⟩
  · exact ⟨'g', "t;".data, by decide, by decide, by decide, by decide⟩
  · exact ⟨'q', "uot;".data, by decide, by decide, by decide, by decide⟩
  · exact ⟨'#', "039;".data, by decide, by decide, by decide, by decide⟩

/-- The entities of two different special characters differ in their second
character. -/
theorem escapeChar_second (c x : Char) (hc : isSpecial c = true) (hx : isSpecial x = true)
    (hne : c ≠ x) : (escapeChar c).tail.head? ≠ (escapeChar x).tail.head? := by
  rcases isSpecial_cases c hc with rfl | rfl | rfl | rfl | rfl <;>
    rcases isSpecial_cases x hx with rfl | rfl | rfl | rfl | rfl <;>
    first
      | exact absurd rfl hne
      | decide

/-- A character that is not special is kept by the escaping. -/
theorem escapeChar_plain (c : Char) (h : isSpecial c = false) : escapeChar c = [c] := by
  simp only [isSpecial, Bool.or_eq_false_iff, decide_eq_false_iff_not] at h
  obtain ⟨⟨⟨⟨h1, h2⟩, h3⟩, h4⟩, h5⟩ := h
  simp [escapeChar, h1, h2, h3, h4, h5]

/-- A prefix test on two non-empty lists compares the heads and goes on. -/
theorem isPrefixOf_cons_cons (a b : Char) (p l : List Char) :
    (a :: p).isPrefixOf (b :: l) = (a == b && p.isPrefixOf l) := rfl

/-- Where the pattern does not start, the replacement copies a character. -/
theorem replaceAllChars_copy (pat rep : List Char) (c : Char) (cs : List Char)
    (h : pat.isPrefixOf (c :: cs) = false) :
    replaceAllChars pat rep 0 (c :: cs) = c :: replaceAllChars pat rep 0 cs := by
  rw [replaceAllChars, if_neg (by simp [h])]

/-- Where the pattern starts, the replacement puts `rep` and drops the rest
of the match. -/
theorem replaceAllChars_hit (pat rep : List Char) (c : Char) (cs : List Char)
    (h : pat.isPrefixOf (c :: cs) = true) :
    replaceAllChars pat rep 0 (c :: cs)
      = rep ++ replaceAllChars pat rep (pat.length - 1) cs := by
  rw [replaceAllChars, if_pos h]

/-- The characters of a match that are still to be dropped are dropped. -/
theorem replaceAllChars_skip (pat rep : List Char) :
    ∀ (xs rest : List Char),
      replaceAllChars pat rep xs.length (xs ++ rest) = replaceAllChars pat rep 0 rest := by
  intro xs
  induction xs with
  | nil => intro rest; rfl
  | cons a xs ih =>
    intro rest
    rw [List.length_cons, List.cons_append, replaceAllChars]
    exact ih rest

/-- Characters other than the ampersand are copied by the replacement of an
entity. -/
theorem replaceAllChars_plain (bp rep : List Char) :
    ∀ (xs rest : List Char), (∀ a ∈ xs, a ≠ '&') →
      replaceAllChars ('&' :: bp) rep 0 (xs ++ rest)
        = xs ++ replaceAllChars ('&' :: bp) rep 0 rest := by
  intro xs
  induction xs with
  | nil => intro rest _; rfl
  | cons a xs ih =>
    intro rest h
    have ha : ('&' == a) = false := by
      have := h a (by simp)
      simpa using Ne.symm this
    rw [List.cons_append, replaceAllChars_copy _ _ _ _ (by rw [isPrefixOf_cons_cons, ha]; rfl),
      ih rest (fun b hb => h b (by simp [hb]))]
    rfl

/-- A text without special characters starts the partly escaped text exactly
when it starts the original. -/
theorem isPrefixOf_escapeWhere (enc : Char → Bool) (henc : ∀ c, enc c = true → isSpecial c = true) :
    ∀ (p cs : List Char), (∀ a ∈ p, isSpecial a = false) →
      p.isPrefixOf (escapeWhere enc cs) = p.isPrefixOf cs := by
  intro p
  induction p with
  | nil => intro cs _; simp
  | cons a p ih =>
    intro cs hp
    have ha : isSpecial a = false := hp a (by simp)
    cases cs with
    | nil => rfl
    | cons c cs =>
      by_cases hc : enc c = true
      · have hsc := henc c hc
        obtain ⟨b, body, hb, -, -, -⟩ := escapeChar_special c hsc
        have h1 : (a == '&') = false := by
          have : a ≠ '&' := by
            intro h; rw [h] at ha; exact absurd ha (by decide)
          simpa using this
        have h2 : (a == c) = false := by
          have : a ≠ c := by
            intro h; rw [h, hsc] at ha; cases ha
          simpa using this
        rw [escapeWhere, if_pos hc, hb, List.cons_append, isPrefixOf_cons_cons,
          isPrefixOf_cons_cons, h1, h2]
        rfl
      · rw [escapeWhere, if_neg hc, List.singleton_append, isPrefixOf_cons_cons,
          isPrefixOf_cons_cons, ih cs (fun b hb => hp b (by simp [hb]))]

/-- One pass of `decode` on a partly escaped text: the replacement of the
entity of `x` decodes exactly the escaped occurrences of `x`, provided every
ampersand of the text starts an entity (the ampersand is still escaped) or
the entity of `x` does not occur in the original. -/
theorem replaceAllChars_escapeWhere (x : Char) (hx : isSpecial x = true) (enc : Char → Bool)
    (henc : ∀ c, enc c = true → isSpecial c = true) :
    ∀ (s : List Char), (enc '&' = true ∨ occursIn (escapeChar x) s = false) →
      replaceAllChars (escapeChar x) [x] 0 (escapeWhere enc s)
        = escapeWhere (fun c => enc c && c != x) s := by
  obtain ⟨bx, bodyx, hxe, -, -, hxs⟩ := escapeChar_special x hx
  intro s
  induction s with
  | nil => intro _; rfl
  | cons c cs ih =>
    intro h
    have hcs : enc '&' = true ∨ occursIn (escapeChar x) cs = false := by
      rcases h with h | h
      · exact Or.inl h
      · rw [occursIn, Bool.or_eq_false_iff] at h
        exact Or.inr h.2
    have ih' := ih hcs
    by_cases hc : enc c = true
    · obtain ⟨bc, bodyc, hce, -, hcamp, -⟩ := escapeChar_special c (henc c hc)
      by_cases hcx : c = x
      · subst hcx
        have hpre : (escapeChar c).isPrefixOf ('&' :: (bc :: bodyc ++ escapeWhere enc cs)) = true := by
          rw [List.isPrefixOf_iff_prefix, hce]
          exact ⟨escapeWhere enc cs, rfl⟩
        have hlen : (escapeChar c).length - 1 = (bc :: bodyc).length := by
          rw [hce]; rfl
        have hR : escapeWhere (fun d => enc d && d != c) (c :: cs)
            = [c] ++ escapeWhere (fun d => enc d && d != c) cs := by
          rw [escapeWhere]
          simp
        rw [hR, ← ih', escapeWhere, if_pos hc]
        conv => lhs; arg 4; rw [hce]
        rw [List.cons_append, replaceAllChars_hit _ _ _ _ hpre, hlen, replaceAllChars_skip]
      · have hsecond : (bx == bc) = false := by
          have := escapeChar_second c x (henc c hc) hx hcx
          rw [hce, hxe] at this
          simp only [List.tail_cons, List.head?_cons, ne_eq, Option.some.injEq] at this
          simpa using fun h => this h.symm
        have hpre : (escapeChar x).isPrefixOf ('&' :: (bc :: bodyc ++ escapeWhere enc cs)) = false := by
          rw [hxe, isPrefixOf_cons_cons, List.cons_append, isPrefixOf_cons_cons, hsecond]
          simp
        have hR : escapeWhere (fun d => enc d && d != x) (c :: cs)
            = escapeChar c ++ escapeWhere (fun d => enc d && d != x) cs := by
          rw [escapeWhere]
          simp [hc, hcx]
        rw [hR, ← ih', escapeWhere, if_pos hc]
        conv => lhs; arg 4; rw [hce]
        rw [List.cons_append, replaceAllChars_copy _ _ _ _ hpre]
        conv => lhs; arg 2; rw [hxe]
        rw [replaceAllChars_plain _ _ _ _ hcamp, hce, ← hxe]
        rfl
    · have hpre : (escapeChar x).isPrefixOf (c :: escapeWhere enc cs) = false := by
        rw [hxe, isPrefixOf_cons_cons]
        by_cases hamp : c = '&'
        · subst hamp
          rcases h with h | h
          · exact absurd h hc
          · rw [occursIn, Bool.or_eq_false_iff, hxe, isPrefixOf_cons_cons] at h
            rw [isPrefixOf_escapeWhere enc henc _ _ hxs]
            exact h.1
        · have : ('&' == c) = false := by simpa using Ne.symm hamp
          rw [this]; rfl
      have hR : escapeWhere (fun d => enc d && d != x) (c :: cs)
          = [c] ++ escapeWhere (fun d => enc d && d != x) cs := by
        rw [escapeWhere]
        simp [hc]
      rw [hR, ← ih', escapeWhere, if_neg hc, List.singleton_append,
        replaceAllChars_copy _ _ _ _ hpre]
      rfl

/-- The full escaping escapes the special characters. -/
theorem escapeChars_eq (s : List Char) : escapeChars s = escapeWhere isSpecial s := by
  induction s with
  | nil => rfl
  | cons c cs ih =>
    rw [escapeChars, escapeWhere, ih]
    by_cases hc : isSpecial c = true
    · rw [if_pos hc]
    · rw [if_neg hc, escapeChar_plain c (by simpa using hc)]

/-- Escaping no character changes nothing. -/
theorem escapeWhere_none (enc : Char → Bool) (h : ∀ c, enc c = false) (s : List Char) :
    escapeWhere enc s = s := by
  induction s with
  | nil => rfl
  | cons c cs ih => rw [escapeWhere, ih, h c]; rfl

/-- The round trip where it holds: for every text in which neither `&lt;` nor
`&gt;` occurs, decoding the standard HTML escaping of the text gives the text
back. -/
theorem decode_htmlEscape (s : String)
    (hlt : occursIn "&lt;".data s.data = false)
    (hgt : occursIn "&gt;".data s.data = false) :
    decode (htmlEscape s) = s := by
  have e0 : ∀ c, isSpecial c = true → isSpecial c = true := fun _ h => h
  have e1 : ∀ c, (isSpecial c && c != Char.ofNat 34) = true → isSpecial c = true := by
    intro c h; simp only [Bool.and_eq_true] at h; exact h.1
  have e2 : ∀ c, ((isSpecial c && c != Char.ofNat 34) && c != Char.ofNat 39) = true →
      isSpecial c = true := by
    intro c h; simp only [Bool.and_eq_true] at h; exact h.1.1
  have e3 : ∀ c, (((isSpecial c && c != Char.ofNat 34) && c != Char.ofNat 39) && c != '&') = true →
      isSpecial c = true := by
    intro c h; simp only [Bool.and_eq_true] at h; exact h.1.1.1
  have e4 : ∀ c, ((((isSpecial c && c != Char.ofNat 34) && c != Char.ofNat 39) && c != '&')
      && c != '<') = true → isSpecial c = true := by
    intro c h; simp only [Bool.and_eq_true] at h; exact h.1.1.1.1
  have p1 := replaceAllChars_escapeWhere (Char.ofNat 34) (by decide) isSpecial e0 s.data
    (Or.inl (by decide))
  have p2 := replaceAllChars_escapeWhere (Char.ofNat 39) (by decide) _ e1 s.data
    (Or.inl (by decide))
  have p3 := replaceAllChars_escapeWhere '&' (by decide) _ e2 s.data (Or.inl (by decide))
  have p4 := replaceAllChars_escapeWhere '<' (by decide) _ e3 s.data (Or.inr hlt)
  have p5 := replaceAllChars_escapeWhere '>' (by decide) _ e4 s.data (Or.inr hgt)
  have hnone : ∀ c, (((((isSpecial c && c != Char.ofNat 34) && c != Char.ofNat 39) && c != '&')
      && c != '<') && c != '>') = false := by
    intro c
    by_cases hc : isSpecial c = true
    · rcases isSpecial_cases c hc with rfl | rfl | rfl | rfl | rfl <;> decide
    · have : isSpecial c = false := by simpa using hc
      rw [this]; rfl
  have hall : replaceAllChars "&gt;".data ">".data 0
      (replaceAllChars "&lt;".data "<".data 0
        (replaceAllChars "&amp;".data "&".data 0
          (replaceAllChars "&#039;".data "\x27".data 0
            (replaceAllChars "&quot;".data "\"".data 0 (escapeChars s.data))))) = s.data := by
    rw [escapeChars_eq]
    have q1 : replaceAllChars "&quot;".data "\"".data 0 (escapeWhere isSpecial s.data)
        = escapeWhere (fun c => isSpecial c && c != Char.ofNat 34) s.data := p1
    rw [q1]
    have q2 : replaceAllChars "&#039;".data "\x27".data 0
        (escapeWhere (fun c => isSpecial c && c != Char.ofNat 34) s.data)
        = escapeWhere (fun c => (isSpecial c && c != Char.ofNat 34) && c != Char.ofNat 39)
            s.data := p2
    rw [q2]
    have q3 : replaceAllChars "&amp;".data "&".data 0
        (escapeWhere (fun c => (isSpecial c && c != Char.ofNat 34) && c != Char.ofNat 39) s.data)
        = escapeWhere (fun c => ((isSpecial c && c != Char.ofNat 34) && c != Char.ofNat 39)
            && c != '&') s.data := p3
    rw [q3]
    have q4 : replaceAllChars "&lt;".data "<".data 0
        (escapeWhere (fun c => ((isSpecial c && c != Char.ofNat 34) && c != Char.ofNat 39)
            && c != '&') s.data)
        = escapeWhere (fun c => (((isSpecial c && c != Char.ofNat 34) && c != Char.ofNat 39)
            && c != '&') && c != '<') s.data := p4
    rw [q4]
    have q5 : replaceAllChars "&gt;".data ">".data 0
        (escapeWhere (fun c => (((isSpecial c && c != Char.ofNat 34) && c != Char.ofNat 39)
            && c != '&') && c != '<') s.data)
        = escapeWhere (fun c => ((((isSpecial c && c != Char.ofNat 34) && c != Char.ofNat 39)
            && c != '&') && c != '<') && c != '>') s.data := p5
    rw [q5]
    exact escapeWhere_none _ hnone s.data
  show String.mk _ = s
  simp only [replaceAll, htmlEscape]
  rw [hall]

/-- The round trip on a text with all five special characters. -/
theorem decode_htmlEscape_example :
    occursIn "&lt;".data "Tom & \"Jerry\" <b> it\x27s".data = false ∧
    occursIn "&gt;".data "Tom & \"Jerry\" <b> it\x27s".data = false ∧
    decode (htmlEscape "Tom & \"Jerry\" <b> it\x27s") = "Tom & \"Jerry\" <b> it\x27s" :=
  ⟨by decide, by decide, decode_htmlEscape _ (by decide) (by decide)⟩

/-- C11 (failing input): the text `&lt;` is escaped to `&amp;lt;`, which
`decode` turns into `<` instead of giving `&lt;` back: `&amp;` is replaced
before `&lt;` and `&gt;`, so the ampersand it produces is read again as the
start of an entity. -/
theorem decode_escaped_entity :
    htmlEscape "&lt;" = "&amp;lt;" ∧
    decode (htmlEscape "&lt;") = "<" ∧
    decode (htmlEscape "&lt;") ≠ "&lt;" ∧
    decodeVal (str "What does &amp;lt; stand for?") = .ok "What does < stand for?" := by
  refine ⟨by decide, by decide, by decide, ?_⟩
  rfl

end DailyGoodVibes
